import Mathlib

/-
Verification development for the malloc-lab allocators
(mm-explicit.c, mm-segregated-fit.c, mm-segregated-buddy.c).

The heap is modelled as a word-addressed 32-bit memory: `mem` maps the
word index (byte address divided by 4) to the 32-bit word stored there.
All header, footer and link accesses in the C sources are 4-byte-aligned
word accesses, so this granularity is exact; `memcpy`, whose length may
not be a multiple of 4, is modelled with an explicit partial-word copy of
the low `len % 4` bytes (little-endian).  Pointers are byte addresses
from the start of the heap region (`mem_sbrk` hands out address 0
first); the null pointer is the address 0, matching the C sources which
compare pointers against NULL.  The model follows the 32-bit build of
the lab (WSIZE = 4, pointers are one word), as the sources assume when
they place the predecessor link at offset 0 and the successor link at
offset 4 of a free block.

Subtraction on addresses uses Nat subtraction; in the C sources every
subtraction that a legitimate execution performs is on addresses large
enough not to underflow.  Where a theorem exercises undefined behaviour
of the C (reading the header of the null pointer), the model reads the
word that the truncated address denotes; this is noted at the theorem.
-/

namespace MallocLab

/-- The raw heap region plus the state of the memory library:
`brk` is the current break in bytes, `limit` is where `mem_sbrk`
starts failing (models the fixed-size region of memlib). -/
structure Heap where
  mem : Nat → Nat
  brk : Nat
  limit : Nat

/-- Read the word at byte address `a` (GET(p) in the sources). -/
def getW (h : Heap) (a : Nat) : Nat := h.mem (a / 4)

/-- Write the word at byte address `a` (PUT(p, val) in the sources). -/
def putW (h : Heap) (a v : Nat) : Heap :=
  { h with mem := fun w => if w = a / 4 then v else h.mem w }

/-- memlib's mem_sbrk: extend the break by `incr` bytes, returning the old
break (the first new byte) on success and none (the C (void * )-1) when the
region is exhausted.  Fresh memory is whatever `mem` already holds there;
concrete heaps in this file start all-zero, matching memlib's zeroed pages. -/
def mem_sbrk (h : Heap) (incr : Nat) : Heap × Option Nat :=
  if h.brk + incr ≤ h.limit then ({ h with brk := h.brk + incr }, some h.brk)
  else (h, none)

/-- PACK(size, alloc) = size | alloc. -/
def PACK (size alloc : Nat) : Nat := size ||| alloc

/-- GET_SIZE(p) reads a word and masks the low 3 bits: w & ~0x7 on a
32-bit unsigned word. -/
def GET_SIZE (w : Nat) : Nat := w &&& 0xFFFFFFF8

/-- GET_ALLOC(p) = w & 0x1. -/
def GET_ALLOC (w : Nat) : Nat := w &&& 0x1

/-- ALIGN(size) = (size + 7) & ~0x7. -/
def ALIGN (size : Nat) : Nat := (size + 7) &&& 0xFFFFFFF8

/-- HDRP(bp) = bp - WSIZE. -/
def HDRP (bp : Nat) : Nat := bp - 4

/-- GET_SIZE(GET(p)) for a byte address p. -/
def sizeAt (h : Heap) (p : Nat) : Nat := GET_SIZE (getW h p)

/-- GET_ALLOC(GET(p)) for a byte address p. -/
def allocAt (h : Heap) (p : Nat) : Nat := GET_ALLOC (getW h p)

/-- FTRP(bp) = bp + GET_SIZE(HDRP(bp)) - DSIZE. -/
def FTRP (h : Heap) (bp : Nat) : Nat := bp + sizeAt h (HDRP bp) - 8

/-- NEXT_BLKP(bp) = bp + GET_SIZE(bp - WSIZE). -/
def NEXT_BLKP (h : Heap) (bp : Nat) : Nat := bp + sizeAt h (HDRP bp)

/-- PREV_BLKP(bp) = bp - GET_SIZE(bp - DSIZE). -/
def PREV_BLKP (h : Heap) (bp : Nat) : Nat := bp - sizeAt h (bp - 8)

/-- GET_PRED(bp): the predecessor link stored at offset 0 of a free block. -/
def GET_PRED (h : Heap) (bp : Nat) : Nat := getW h bp

/-- GET_SUCC(bp): the successor link stored at offset WSIZE of a free block. -/
def GET_SUCC (h : Heap) (bp : Nat) : Nat := getW h (bp + 4)

/-- Copy `n` whole words forward from `src` to `dst` (the word-aligned part
of memcpy; every memcpy in the sources has 8-aligned src and dst). -/
def copyWords (h : Heap) (dst src : Nat) : Nat → Heap
  | 0 => h
  | n + 1 => copyWords (putW h dst (getW h src)) (dst + 4) (src + 4) n

/-- memcpy(dst, src, len) for 4-aligned dst and src: whole words first,
then the low `len % 4` bytes of the last word (little-endian). -/
def memcpyBytes (h : Heap) (dst src len : Nat) : Heap :=
  let h1 := copyWords h dst src (len / 4)
  if len % 4 = 0 then h1
  else
    let d := dst + 4 * (len / 4)
    let s := src + 4 * (len / 4)
    let r := len % 4
    putW h1 d (getW h1 s % 256 ^ r + getW h1 d / 256 ^ r * 256 ^ r)

/-- The spec's align_up(m, 8) (§4.6: need = align_up(size + 8, 8)), as exact
natural-number arithmetic. -/
def alignUp8 (m : Nat) : Nat := 8 * ((m + 7) / 8)

end MallocLab

/- ===================== mm-explicit.c ===================== -/

namespace MallocLab.Exp

open MallocLab

/-- Explicit-list allocator state: the heap plus the global free_listp. -/
structure EState where
  heap : Heap
  free_listp : Nat

/-- add_free_block (mm-explicit.c:291): LIFO insertion at the list head. -/
def add_free_block (s : EState) (bp : Nat) : EState :=
  let h1 := putW s.heap bp 0
  let h2 := putW h1 (bp + 4) s.free_listp
  let h3 := if s.free_listp ≠ 0 then putW h2 s.free_listp bp else h2
  { heap := h3, free_listp := bp }

/-- remove_free_block (mm-explicit.c:275). -/
def remove_free_block (s : EState) (bp : Nat) : EState :=
  if bp = s.free_listp then
    { s with free_listp := GET_SUCC s.heap bp }
  else
    let h1 := putW s.heap (GET_PRED s.heap bp + 4) (GET_SUCC s.heap bp)
    let h2 := if GET_SUCC h1 bp ≠ 0 then putW h1 (GET_SUCC h1 bp) (GET_PRED h1 bp) else h1
    { s with heap := h2 }

/-- coalesce (mm-explicit.c:303): boundary-tag coalescing, four cases on the
allocation flags of the previous block's footer and the next block's header. -/
def coalesce (s : EState) (bp : Nat) : EState × Nat :=
  let prev_alloc := GET_ALLOC (getW s.heap (FTRP s.heap (PREV_BLKP s.heap bp)))
  let next_alloc := GET_ALLOC (getW s.heap (HDRP (NEXT_BLKP s.heap bp)))
  let size := sizeAt s.heap (HDRP bp)
  if prev_alloc ≠ 0 ∧ next_alloc ≠ 0 then
    (add_free_block s bp, bp)
  else if prev_alloc ≠ 0 ∧ next_alloc = 0 then
    let s1 := remove_free_block s (NEXT_BLKP s.heap bp)
    let size2 := size + sizeAt s1.heap (HDRP (NEXT_BLKP s1.heap bp))
    let h1 := putW s1.heap (HDRP bp) (PACK size2 0)
    let h2 := putW h1 (FTRP h1 bp) (PACK size2 0)
    (add_free_block { s1 with heap := h2 } bp, bp)
  else if prev_alloc = 0 ∧ next_alloc ≠ 0 then
    let s1 := remove_free_block s (PREV_BLKP s.heap bp)
    let size2 := size + sizeAt s1.heap (HDRP (PREV_BLKP s1.heap bp))
    let h1 := putW s1.heap (FTRP s1.heap bp) (PACK size2 0)
    let h2 := putW h1 (HDRP (PREV_BLKP h1 bp)) (PACK size2 0)
    let bp2 := PREV_BLKP h2 bp
    (add_free_block { s1 with heap := h2 } bp2, bp2)
  else
    let s1 := remove_free_block s (PREV_BLKP s.heap bp)
    let s2 := remove_free_block s1 (NEXT_BLKP s1.heap bp)
    let size2 := size + sizeAt s2.heap (HDRP (PREV_BLKP s2.heap bp))
      + sizeAt s2.heap (FTRP s2.heap (NEXT_BLKP s2.heap bp))
    let h1 := putW s2.heap (HDRP (PREV_BLKP s2.heap bp)) (PACK size2 0)
    let h2 := putW h1 (FTRP h1 (NEXT_BLKP h1 bp)) (PACK size2 0)
    let bp2 := PREV_BLKP h2 bp
    (add_free_block { s2 with heap := h2 } bp2, bp2)

/-- extend_heap (mm-explicit.c:182): returns the coalesced new block, or the
null pointer 0 when mem_sbrk fails. -/
def extend_heap (s : EState) (words : Nat) : EState × Nat :=
  let size := if words % 2 = 1 then (words + 1) * 4 else words * 4
  match mem_sbrk s.heap size with
  | (h, none) => ({ s with heap := h }, 0)
  | (h, some bp) =>
    let h1 := putW h (HDRP bp) (PACK size 0)
    let h2 := putW h1 (FTRP h1 bp) (PACK size 0)
    let h3 := putW h2 (HDRP (NEXT_BLKP h2 bp)) (PACK 0 1)
    coalesce { s with heap := h3 } bp

/-- find_fit (mm-explicit.c:366, BEST_FIT — the policy enabled in the source):
walk the single free list keeping the smallest fitting block.  The walk is
fuelled; the fuel passed by `find_fit` exceeds the number of blocks any
well-formed heap can hold, so it never runs out there (the C loop simply has
no bound and would not terminate on a cyclic list). -/
def find_fit_loop (h : Heap) (asize : Nat) : Nat → Nat → Nat → Nat → Nat
  | _, best_bp, _, 0 => best_bp
  | bp, best_bp, min_size, fuel + 1 =>
    if bp = 0 then best_bp
    else if asize ≤ sizeAt h (HDRP bp) ∧ (min_size = 0 ∨ sizeAt h (HDRP bp) < min_size) then
      find_fit_loop h asize (GET_SUCC h bp) bp (sizeAt h (HDRP bp)) fuel
    else
      find_fit_loop h asize (GET_SUCC h bp) best_bp min_size fuel

def find_fit (s : EState) (asize : Nat) : Nat :=
  find_fit_loop s.heap asize s.free_listp 0 0 (s.heap.brk + 1)

/-- place (mm-explicit.c:251).  The C compares the unsigned difference
chunk_size - allocate_size with 2*DSIZE; in every call of the program
allocate_size ≤ chunk_size holds, where this agrees with Nat subtraction. -/
def place (s : EState) (bp allocate_size : Nat) : EState :=
  let s1 := remove_free_block s bp
  let chunk_size := sizeAt s1.heap (HDRP bp)
  if 16 ≤ chunk_size - allocate_size then
    let h1 := putW s1.heap (HDRP bp) (PACK allocate_size 1)
    let h2 := putW h1 (FTRP h1 bp) (PACK allocate_size 1)
    let bp2 := NEXT_BLKP h2 bp
    let h3 := putW h2 (HDRP bp2) (PACK (chunk_size - allocate_size) 0)
    let h4 := putW h3 (FTRP h3 bp2) (PACK (chunk_size - allocate_size) 0)
    add_free_block { s1 with heap := h4 } bp2
  else
    let h1 := putW s1.heap (HDRP bp) (PACK chunk_size 1)
    let h2 := putW h1 (FTRP h1 bp) (PACK chunk_size 1)
    { s1 with heap := h2 }

/-- mm_malloc (mm-explicit.c:206). -/
def mm_malloc (s : EState) (size : Nat) : EState × Nat :=
  if size = 0 then (s, 0)
  else
    let asize := if size ≤ 8 then 16 else ALIGN (size + 8)
    let bp := find_fit s asize
    if bp ≠ 0 then (place s bp asize, bp)
    else
      let extendsize := max asize 4096
      let (s1, bp2) := extend_heap s (extendsize / 4)
      if bp2 = 0 then (s1, 0) else (place s1 bp2 asize, bp2)

/-- mm_free (mm-explicit.c:239). -/
def mm_free (s : EState) (bp : Nat) : EState :=
  let size := sizeAt s.heap (HDRP bp)
  let h1 := putW s.heap (HDRP bp) (PACK size 0)
  let h2 := putW h1 (FTRP h1 bp) (PACK size 0)
  (coalesce { s with heap := h2 } bp).1

/-- mm_init (mm-explicit.c:156): prologue, one initial 16-byte free block,
epilogue, then extend by CHUNKSIZE.  Returns none where the C returns -1. -/
def mm_init (limit : Nat) : Option EState :=
  let h0 : Heap := ⟨fun _ => 0, 0, limit⟩
  match mem_sbrk h0 32 with
  | (_, none) => none
  | (h1, some base) =>
    let h2 := putW h1 base 0
    let h3 := putW h2 (base + 4) (PACK 8 1)
    let h4 := putW h3 (base + 8) (PACK 8 1)
    let h5 := putW h4 (base + 12) (PACK 16 0)
    let h6 := putW h5 (base + 16) 0
    let h7 := putW h6 (base + 20) 0
    let h8 := putW h7 (base + 24) (PACK 16 0)
    let h9 := putW h8 (base + 28) (PACK 0 1)
    let s : EState := ⟨h9, base + 16⟩
    let (s1, bp) := extend_heap s 1024
    if bp = 0 then none else some s1

/-- mm_realloc (mm-explicit.c:413).  Note: no null-pointer and no size-0
special case; the relocating branch mallocs `newsize` = size + DSIZE and
copies `newsize` bytes. -/
def mm_realloc (s : EState) (ptr size : Nat) : EState × Nat :=
  let oldptr := ptr
  let originsize := sizeAt s.heap (HDRP oldptr)
  let newsize := size + 8
  if newsize ≤ originsize then (s, oldptr)
  else
    let addSize := originsize + sizeAt s.heap (HDRP (NEXT_BLKP s.heap oldptr))
    if GET_ALLOC (getW s.heap (HDRP (NEXT_BLKP s.heap oldptr))) = 0 ∧ newsize ≤ addSize then
      let s1 := remove_free_block s (NEXT_BLKP s.heap oldptr)
      let h1 := putW s1.heap (HDRP oldptr) (PACK addSize 1)
      let h2 := putW h1 (FTRP h1 oldptr) (PACK addSize 1)
      ({ s1 with heap := h2 }, oldptr)
    else
      let (s1, newptr) := mm_malloc s newsize
      if newptr = 0 then (s1, 0)
      else
        let h1 := memcpyBytes s1.heap newptr oldptr newsize
        let s2 := mm_free { s1 with heap := h1 } oldptr
        (s2, newptr)

end MallocLab.Exp

/- ===================== mm-segregated-fit.c ===================== -/

namespace MallocLab.Seg

open MallocLab

/-- Segregated-fit allocator state: the heap plus the global heap_listp
(which points at the first free-list root inside the prologue). -/
structure SState where
  heap : Heap
  heap_listp : Nat

/-- Byte address of GET_ROOT(index): heap_listp + index * WSIZE.  The C
index is an int (get_class can return -1); the address is computed in Int
and truncated to Nat exactly when it would be negative. -/
def rootAddr (hlp : Nat) (k : Int) : Nat := ((hlp : Int) + 4 * k).toNat

def getRoot (s : SState) (k : Int) : Nat := getW s.heap (rootAddr s.heap_listp k)

def setRoot (s : SState) (k : Int) (v : Nat) : SState :=
  { s with heap := putW s.heap (rootAddr s.heap_listp k) v }

/-- The loop body of get_class (mm-segregated-fit.c:325): class_sizes[i] is
built by doubling; the first i in 1..19 with size ≤ class_sizes[i] is
returned, else 19.  The fuel 20 passed by `get_class` covers every
iteration the C for-loop can make. -/
def get_class_loop (size : Nat) : Nat → Nat → Nat → Nat
  | _, _, 0 => 19
  | i, prev, fuel + 1 =>
    if i < 20 then
      let c := prev <<< 1
      if size ≤ c then i else get_class_loop size (i + 1) c fuel
    else 19

/-- get_class (mm-segregated-fit.c:325): -1 for sizes below the 16-byte
minimum, otherwise the loop starting at i = 1 with class_sizes[0] = 16. -/
def get_class (size : Nat) : Int :=
  if size < 16 then -1 else (get_class_loop size 1 16 20 : Nat)

/-- add_free_block (mm-segregated-fit.c:312).  Unlike the explicit variant
it does not write GET_PRED(bp); the C re-reads GET_ROOT(class) for the
null test after the successor write, as does the model. -/
def add_free_block (s : SState) (bp : Nat) : SState :=
  let k := get_class (sizeAt s.heap (HDRP bp))
  let h1 := putW s.heap (bp + 4) (getRoot s k)
  let s1 : SState := { s with heap := h1 }
  let r1 := getRoot s1 k
  let s2 := if r1 ≠ 0 then { s1 with heap := putW s1.heap r1 bp } else s1
  setRoot s2 k bp

/-- remove_free_block (mm-segregated-fit.c:295). -/
def remove_free_block (s : SState) (bp : Nat) : SState :=
  let k := get_class (sizeAt s.heap (HDRP bp))
  if bp = getRoot s k then
    setRoot s k (GET_SUCC s.heap (getRoot s k))
  else
    let h1 := putW s.heap (GET_PRED s.heap bp + 4) (GET_SUCC s.heap bp)
    let h2 := if GET_SUCC h1 bp ≠ 0 then putW h1 (GET_SUCC h1 bp) (GET_PRED h1 bp) else h1
    { s with heap := h2 }

/-- coalesce (mm-segregated-fit.c:350): textually the explicit variant's
coalesce over the segregated list operations. -/
def coalesce (s : SState) (bp : Nat) : SState × Nat :=
  let prev_alloc := GET_ALLOC (getW s.heap (FTRP s.heap (PREV_BLKP s.heap bp)))
  let next_alloc := GET_ALLOC (getW s.heap (HDRP (NEXT_BLKP s.heap bp)))
  let size := sizeAt s.heap (HDRP bp)
  if prev_alloc ≠ 0 ∧ next_alloc ≠ 0 then
    (add_free_block s bp, bp)
  else if prev_alloc ≠ 0 ∧ next_alloc = 0 then
    let s1 := remove_free_block s (NEXT_BLKP s.heap bp)
    let size2 := size + sizeAt s1.heap (HDRP (NEXT_BLKP s1.heap bp))
    let h1 := putW s1.heap (HDRP bp) (PACK size2 0)
    let h2 := putW h1 (FTRP h1 bp) (PACK size2 0)
    (add_free_block { s1 with heap := h2 } bp, bp)
  else if prev_alloc = 0 ∧ next_alloc ≠ 0 then
    let s1 := remove_free_block s (PREV_BLKP s.heap bp)
    let size2 := size + sizeAt s1.heap (HDRP (PREV_BLKP s1.heap bp))
    let h1 := putW s1.heap (FTRP s1.heap bp) (PACK size2 0)
    let h2 := putW h1 (HDRP (PREV_BLKP h1 bp)) (PACK size2 0)
    let bp2 := PREV_BLKP h2 bp
    (add_free_block { s1 with heap := h2 } bp2, bp2)
  else
    let s1 := remove_free_block s (PREV_BLKP s.heap bp)
    let s2 := remove_free_block s1 (NEXT_BLKP s1.heap bp)
    let size2 := size + sizeAt s2.heap (HDRP (PREV_BLKP s2.heap bp))
      + sizeAt s2.heap (FTRP s2.heap (NEXT_BLKP s2.heap bp))
    let h1 := putW s2.heap (HDRP (PREV_BLKP s2.heap bp)) (PACK size2 0)
    let h2 := putW h1 (FTRP h1 (NEXT_BLKP h1 bp)) (PACK size2 0)
    let bp2 := PREV_BLKP h2 bp
    (add_free_block { s2 with heap := h2 } bp2, bp2)

/-- extend_heap (mm-segregated-fit.c:201). -/
def extend_heap (s : SState) (words : Nat) : SState × Nat :=
  let size := if words % 2 = 1 then (words + 1) * 4 else words * 4
  match mem_sbrk s.heap size with
  | (h, none) => ({ s with heap := h }, 0)
  | (h, some bp) =>
    let h1 := putW h (HDRP bp) (PACK size 0)
    let h2 := putW h1 (FTRP h1 bp) (PACK size 0)
    let h3 := putW h2 (HDRP (NEXT_BLKP h2 bp)) (PACK 0 1)
    coalesce { s with heap := h3 } bp

/-- The inner list walk of find_fit (BEST_FIT, the enabled policy), fuelled
like the explicit variant's walk. -/
def find_fit_inner (h : Heap) (asize : Nat) : Nat → Nat → Nat → Nat → Nat × Nat
  | _, best_bp, min_size, 0 => (best_bp, min_size)
  | bp, best_bp, min_size, fuel + 1 =>
    if bp = 0 then (best_bp, min_size)
    else if asize ≤ sizeAt h (HDRP bp) ∧ (min_size = 0 ∨ sizeAt h (HDRP bp) < min_size) then
      find_fit_inner h asize (GET_SUCC h bp) bp (sizeAt h (HDRP bp)) fuel
    else
      find_fit_inner h asize (GET_SUCC h bp) best_bp min_size fuel

/-- The outer class loop of find_fit (mm-segregated-fit.c:416): classes from
get_class(asize) up to 19, carrying the best candidate across classes.
Fuel 22 (passed by `find_fit`) covers every iteration: the C int `class`
starts at a value ≥ -1 and the loop stops at 20. -/
def find_fit_outer (s : SState) (asize : Nat) : Int → Nat → Nat → Nat → Nat
  | _, best_bp, _, 0 => best_bp
  | k, best_bp, min_size, fuel + 1 =>
    if k < 20 then
      let r := find_fit_inner s.heap asize (getRoot s k) best_bp min_size (s.heap.brk + 1)
      find_fit_outer s asize (k + 1) r.1 r.2 fuel
    else best_bp

def find_fit (s : SState) (asize : Nat) : Nat :=
  find_fit_outer s asize (get_class asize) 0 0 22

/-- place (mm-segregated-fit.c:271): identical to the explicit variant's. -/
def place (s : SState) (bp allocate_size : Nat) : SState :=
  let s1 := remove_free_block s bp
  let chunk_size := sizeAt s1.heap (HDRP bp)
  if 16 ≤ chunk_size - allocate_size then
    let h1 := putW s1.heap (HDRP bp) (PACK allocate_size 1)
    let h2 := putW h1 (FTRP h1 bp) (PACK allocate_size 1)
    let bp2 := NEXT_BLKP h2 bp
    let h3 := putW h2 (HDRP bp2) (PACK (chunk_size - allocate_size) 0)
    let h4 := putW h3 (FTRP h3 bp2) (PACK (chunk_size - allocate_size) 0)
    add_free_block { s1 with heap := h4 } bp2
  else
    let h1 := putW s1.heap (HDRP bp) (PACK chunk_size 1)
    let h2 := putW h1 (FTRP h1 bp) (PACK chunk_size 1)
    { s1 with heap := h2 }

/-- mm_malloc (mm-segregated-fit.c:225). -/
def mm_malloc (s : SState) (size : Nat) : SState × Nat :=
  if size = 0 then (s, 0)
  else
    let asize := if size ≤ 8 then 16 else ALIGN (size + 8)
    let bp := find_fit s asize
    if bp ≠ 0 then (place s bp asize, bp)
    else
      let extendsize := max asize 4096
      let (s1, bp2) := extend_heap s (extendsize / 4)
      if bp2 = 0 then (s1, 0) else (place s1 bp2 asize, bp2)

/-- mm_free (mm-segregated-fit.c:259). -/
def mm_free (s : SState) (bp : Nat) : SState :=
  let size := sizeAt s.heap (HDRP bp)
  let h1 := putW s.heap (HDRP bp) (PACK size 0)
  let h2 := putW h1 (FTRP h1 bp) (PACK size 0)
  (coalesce { s with heap := h2 } bp).1

/-- The root-initialisation loop of mm_init (for i < 20: root i := NULL),
fuelled by 20 as passed from mm_init. -/
def rootsLoop (base : Nat) : Heap → Nat → Nat → Heap
  | h, _, 0 => h
  | h, i, fuel + 1 =>
    if i < 20 then rootsLoop base (putW h (base + (2 + i) * 4) 0) (i + 1) fuel else h

/-- mm_init (mm-segregated-fit.c:173): prologue embedding the 20 roots,
epilogue, then extend by (CHUNKSIZE + 2*DSIZE)/WSIZE = 1028 words. -/
def mm_init (limit : Nat) : Option SState :=
  let h0 : Heap := ⟨fun _ => 0, 0, limit⟩
  match mem_sbrk h0 96 with
  | (_, none) => none
  | (h1, some base) =>
    let h2 := putW h1 base 0
    let h3 := putW h2 (base + 4) (PACK 88 1)
    let h4 := rootsLoop base h3 0 20
    let h5 := putW h4 (base + 88) (PACK 88 1)
    let h6 := putW h5 (base + 92) (PACK 0 1)
    let s : SState := ⟨h6, base + 8⟩
    let (s1, bp) := extend_heap s 1028
    if bp = 0 then none else some s1

/-- mm_realloc (mm-segregated-fit.c:470).  No null-pointer check; size 0
returns the null pointer after the (bogus) header read; the relocating
branch mallocs and copies `newsize` = size + DSIZE bytes. -/
def mm_realloc (s : SState) (ptr size : Nat) : SState × Nat :=
  let oldptr := ptr
  let originsize := sizeAt s.heap (HDRP oldptr)
  let newsize := size + 8
  if size = 0 then (s, 0)
  else if newsize ≤ originsize then (s, oldptr)
  else
    let addSize := originsize + sizeAt s.heap (HDRP (NEXT_BLKP s.heap oldptr))
    if GET_ALLOC (getW s.heap (HDRP (NEXT_BLKP s.heap oldptr))) = 0 ∧ newsize ≤ addSize then
      let s1 := remove_free_block s (NEXT_BLKP s.heap oldptr)
      let h1 := putW s1.heap (HDRP oldptr) (PACK addSize 1)
      let h2 := putW h1 (FTRP h1 oldptr) (PACK addSize 1)
      ({ s1 with heap := h2 }, oldptr)
    else
      let (s1, newptr) := mm_malloc s newsize
      if newptr = 0 then (s1, 0)
      else
        let h1 := memcpyBytes s1.heap newptr oldptr newsize
        let s2 := mm_free { s1 with heap := h1 } oldptr
        (s2, newptr)

end MallocLab.Seg

/- ===================== mm-segregated-buddy.c ===================== -/

namespace MallocLab.Bud

open MallocLab

/-- Buddy allocator state: the heap plus the global heap_listp. -/
structure BState where
  heap : Heap
  heap_listp : Nat

/-- Byte address of GET_ROOT(index); the buddy get_class never returns a
negative index, so the address stays in Nat. -/
def rootAddr (hlp k : Nat) : Nat := hlp + 4 * k

def getRoot (s : BState) (k : Nat) : Nat := getW s.heap (rootAddr s.heap_listp k)

def setRoot (s : BState) (k v : Nat) : BState :=
  { s with heap := putW s.heap (rootAddr s.heap_listp k) v }

/-- The while-loop of the buddy get_class (mm-segregated-buddy.c:283):
double next_power_of_2 while it is below size and class+1 < 20.  Fuel 20
(passed by `get_class`) covers every iteration the C loop can make. -/
def get_class_loop (size : Nat) : Nat → Nat → Nat → Nat
  | _, k, 0 => k
  | npo2, k, fuel + 1 =>
    if npo2 < size ∧ k + 1 < 20 then get_class_loop size (npo2 <<< 1) (k + 1) fuel else k

/-- get_class (mm-segregated-buddy.c:283). -/
def get_class (size : Nat) : Nat := get_class_loop size 1 0 20

/-- add_free_block (mm-segregated-buddy.c:270): textually the segregated-fit
variant's insertion (no GET_PRED(bp) write). -/
def add_free_block (s : BState) (bp : Nat) : BState :=
  let k := get_class (sizeAt s.heap (HDRP bp))
  let h1 := putW s.heap (bp + 4) (getRoot s k)
  let s1 : BState := { s with heap := h1 }
  let r1 := getRoot s1 k
  let s2 := if r1 ≠ 0 then { s1 with heap := putW s1.heap r1 bp } else s1
  setRoot s2 k bp

/-- remove_free_block (mm-segregated-buddy.c:253). -/
def remove_free_block (s : BState) (bp : Nat) : BState :=
  let k := get_class (sizeAt s.heap (HDRP bp))
  if bp = getRoot s k then
    setRoot s k (GET_SUCC s.heap (getRoot s k))
  else
    let h1 := putW s.heap (GET_PRED s.heap bp + 4) (GET_SUCC s.heap bp)
    let h2 := if GET_SUCC h1 bp ≠ 0 then putW h1 (GET_SUCC h1 bp) (GET_PRED h1 bp) else h1
    { s with heap := h2 }

/-- The merge loop of the buddy coalesce (mm-segregated-buddy.c:307): find
the buddy by the offset-and-size test, merge while both buddies are free
and of equal size.  The fuel 40 passed by `coalesce` covers every merge a
32-bit heap admits (each merge doubles csize). -/
def coalesce_loop (s : BState) (bp csize root : Nat) : Nat → BState × Nat
  | 0 => (s, bp)
  | fuel + 1 =>
    let lb := if (bp - root) &&& csize ≠ 0 then bp - csize else bp
    let rb := if (bp - root) &&& csize ≠ 0 then bp else bp + csize
    if GET_ALLOC (getW s.heap (HDRP lb)) = 0 ∧ GET_ALLOC (getW s.heap (HDRP rb)) = 0 ∧
        sizeAt s.heap (HDRP lb) = sizeAt s.heap (HDRP rb) then
      let s1 := remove_free_block s lb
      let s2 := remove_free_block s1 rb
      let c2 := csize <<< 1
      let h1 := putW s2.heap (HDRP lb) (PACK c2 0)
      let s3 := add_free_block { s2 with heap := h1 } lb
      coalesce_loop s3 lb c2 root fuel
    else (s, bp)

/-- coalesce (mm-segregated-buddy.c:299): insert first, then merge buddies;
root is heap_listp + (SEGREGATED_LIST_SIZE + 1) * WSIZE, the base of the
payload region. -/
def coalesce (s : BState) (bp : Nat) : BState × Nat :=
  let s1 := add_free_block s bp
  let csize := sizeAt s1.heap (HDRP bp)
  let root := s1.heap_listp + 21 * 4
  coalesce_loop s1 bp csize root 40

/-- extend_heap (mm-segregated-buddy.c:173): header and epilogue only
(the buddy variant has no footers). -/
def extend_heap (s : BState) (words : Nat) : BState × Nat :=
  let size := if words % 2 = 1 then (words + 1) * 4 else words * 4
  match mem_sbrk s.heap size with
  | (h, none) => ({ s with heap := h }, 0)
  | (h, some bp) =>
    let h1 := putW h (HDRP bp) (PACK size 0)
    let h2 := putW h1 (HDRP (NEXT_BLKP h1 bp)) (PACK 0 1)
    coalesce { s with heap := h2 } bp

/-- The inner list walk of the buddy find_fit (FIRST_FIT, the only policy):
return the first fitting block of the class list, 0 if none. -/
def find_fit_inner (h : Heap) (asize : Nat) : Nat → Nat → Nat
  | _, 0 => 0
  | bp, fuel + 1 =>
    if bp = 0 then 0
    else if asize ≤ sizeAt h (HDRP bp) then bp
    else find_fit_inner h asize (GET_SUCC h bp) fuel

/-- The outer class loop of find_fit (mm-segregated-buddy.c:340). -/
def find_fit_outer (s : BState) (asize : Nat) : Nat → Nat → Nat
  | _, 0 => 0
  | k, fuel + 1 =>
    if k < 20 then
      let r := find_fit_inner s.heap asize (getRoot s k) (s.heap.brk + 1)
      if r ≠ 0 then r else find_fit_outer s asize (k + 1) fuel
    else 0

def find_fit (s : BState) (asize : Nat) : Nat :=
  find_fit_outer s asize (get_class asize) 21

/-- The halving loop of place (mm-segregated-buddy.c:241): while the chunk
is bigger than the request, halve it and free the right half.  Fuel 40
(passed by `place`) covers every halving of a 32-bit size; the C loop would
not terminate if allocate_size were unreachable by halving, which no call
of the program does. -/
def place_loop (bp allocate_size : Nat) : BState → Nat → Nat → BState × Nat
  | s, chunk_size, 0 => (s, chunk_size)
  | s, chunk_size, fuel + 1 =>
    if allocate_size ≠ chunk_size then
      let c2 := chunk_size >>> 1
      let h1 := putW s.heap (HDRP (bp + c2)) (PACK c2 0)
      let s1 := add_free_block { s with heap := h1 } (bp + c2)
      place_loop bp allocate_size s1 c2 fuel
    else (s, chunk_size)

/-- place (mm-segregated-buddy.c:236). -/
def place (s : BState) (bp allocate_size : Nat) : BState :=
  let s1 := remove_free_block s bp
  let chunk_size := sizeAt s1.heap (HDRP bp)
  let r := place_loop bp allocate_size s1 chunk_size 40
  { r.1 with heap := putW r.1.heap (HDRP bp) (PACK r.2 1) }

/-- The size-adjustment loop of mm_malloc (mm-segregated-buddy.c:204):
asize starts at 16 and doubles while below size + DSIZE.  Fuel 64 (passed
by `mm_malloc`) covers every size a C size_t can hold. -/
def adjust_loop (size : Nat) : Nat → Nat → Nat
  | asize, 0 => asize
  | asize, fuel + 1 => if asize < size + 8 then adjust_loop size (asize <<< 1) fuel else asize

/-- mm_malloc (mm-segregated-buddy.c:193). -/
def mm_malloc (s : BState) (size : Nat) : BState × Nat :=
  if size = 0 then (s, 0)
  else
    let asize := adjust_loop size 16 64
    let bp := find_fit s asize
    if bp ≠ 0 then (place s bp asize, bp)
    else
      let extendsize := max asize 4096
      let (s1, bp2) := extend_heap s (extendsize / 4)
      if bp2 = 0 then (s1, 0) else (place s1 bp2 asize, bp2)

/-- mm_free (mm-segregated-buddy.c:226): header only, then coalesce. -/
def mm_free (s : BState) (bp : Nat) : BState :=
  let size := sizeAt s.heap (HDRP bp)
  let h1 := putW s.heap (HDRP bp) (PACK size 0)
  (coalesce { s with heap := h1 } bp).1

/-- The root-initialisation loop of mm_init, as in the segregated-fit
variant. -/
def rootsLoop (base : Nat) : Heap → Nat → Nat → Heap
  | h, _, 0 => h
  | h, i, fuel + 1 =>
    if i < 20 then rootsLoop base (putW h (base + (2 + i) * 4) 0) (i + 1) fuel else h

/-- mm_init (mm-segregated-buddy.c:150). -/
def mm_init (limit : Nat) : Option BState :=
  let h0 : Heap := ⟨fun _ => 0, 0, limit⟩
  match mem_sbrk h0 96 with
  | (_, none) => none
  | (h1, some base) =>
    let h2 := putW h1 base 0
    let h3 := putW h2 (base + 4) (PACK 88 1)
    let h4 := rootsLoop base h3 0 20
    let h5 := putW h4 (base + 88) (PACK 88 1)
    let h6 := putW h5 (base + 92) (PACK 0 1)
    let s : BState := ⟨h6, base + 8⟩
    let (s1, bp) := extend_heap s 1024
    if bp = 0 then none else some s1

/-- mm_realloc (mm-segregated-buddy.c:361): null pointer defers to
mm_malloc; size 0 frees and returns the null pointer; otherwise allocate,
copy min(old payload, size) bytes, free the old block. -/
def mm_realloc (s : BState) (ptr size : Nat) : BState × Nat :=
  if ptr = 0 then mm_malloc s size
  else if size = 0 then (mm_free s ptr, 0)
  else
    let (s1, newptr) := mm_malloc s size
    if newptr = 0 then (s1, 0)
    else
      let copySize0 := sizeAt s1.heap (HDRP ptr) - 8
      let copySize := if size < copySize0 then size else copySize0
      let h1 := memcpyBytes s1.heap newptr ptr copySize
      let s2 := mm_free { s1 with heap := h1 } ptr
      (s2, newptr)

end MallocLab.Bud

/- ===================== concrete states used by the theorems ===================== -/

namespace MallocLab

/-- Fallback explicit state for Option.getD (mm_init succeeds for the
limits used below, so it is never the value actually produced). -/
def expDummy : Exp.EState := ⟨⟨fun _ => 0, 0, 0⟩, 0⟩

/-- Fallback buddy state for Option.getD. -/
def budDummy : Bud.BState := ⟨⟨fun _ => 0, 0, 0⟩, 0⟩

/-- The explicit allocator right after mm_init over a 16 KiB region:
prologue at 4..11, one coalesced 4112-byte free block at bp = 16,
epilogue header at 4124, break at 4128. -/
def expInit : Exp.EState := (Exp.mm_init 16384).getD expDummy

/-- expInit after mm_malloc 1 (the spec's scenario S1): allocated 16-byte
block at bp = 16, remaining free block at bp = 32. -/
def expS1 : Exp.EState × Nat := Exp.mm_malloc expInit 1

/-- The buddy allocator right after mm_init over a 16 KiB region:
prologue with the 20 roots at 4..91, one 4096-byte free block at
bp = 96, epilogue header at 4188, break at 4192. -/
def budInit : Bud.BState := (Bud.mm_init 16384).getD budDummy

/-- budInit after mm_malloc 1: allocated 16-byte block at bp = 96; the
splitting left free buddies of sizes 2048 .. 16. -/
def budM1 : Bud.BState × Nat := Bud.mm_malloc budInit 1

/-- A concrete explicit-list heap exercising the relocating branch of
mm_realloc: prologue, allocated block A (size 16) at bp = 16 with payload
words 257, 258, allocated block C (size 16) at bp = 32 with payload words
259, 260, free block B (size 32) at bp = 48 (the only list element),
epilogue at 76, break 80. -/
def reallocMoveMem : Nat → Nat := fun w =>
  if w = 1 then 9 else if w = 2 then 9 else
  if w = 3 then 17 else if w = 4 then 257 else if w = 5 then 258 else if w = 6 then 17 else
  if w = 7 then 17 else if w = 8 then 259 else if w = 9 then 260 else if w = 10 then 17 else
  if w = 11 then 32 else if w = 18 then 32 else if w = 19 then 1 else 0

def reallocMoveState : Exp.EState := ⟨⟨reallocMoveMem, 80, 8192⟩, 48⟩

/-- A concrete segregated-fit heap with one free 16-byte block at bp = 96
whose predecessor slot holds the stale value 99, and empty free lists. -/
def segAddMem : Nat → Nat := fun w =>
  if w = 23 then 16 else if w = 24 then 99 else 0

def segAddState : Seg.SState := ⟨⟨segAddMem, 160, 8192⟩, 8⟩

/-- A concrete segregated-fit heap for coalescing: allocated block of size
16 at pb = 96 (header and footer 17), freshly freed block of size 16 at
bp = 112, free block of size 24 at nb = 128 that is the sole element of
its class list (root of class 1 at byte 12 points to 128). -/
def segCoalMem : Nat → Nat := fun w =>
  if w = 23 then 17 else if w = 26 then 17 else if w = 27 then 16 else
  if w = 31 then 24 else if w = 36 then 24 else if w = 3 then 128 else 0

def segCoalState : Seg.SState := ⟨⟨segCoalMem, 160, 8192⟩, 8⟩

/-- The same coalescing window as segCoalState for the explicit variant:
the free list holds exactly the next block 128 (free_listp = 128); the
words at 8 .. 84 are irrelevant memory there. -/
def expCoalState : Exp.EState := ⟨⟨segCoalMem, 160, 8192⟩, 128⟩

/-- A concrete segregated-fit heap holding one allocated block of size 24
at bp = 96 (header word PACK(24,1) = 25). -/
def segAllocState : Seg.SState := ⟨⟨fun w => if w = 23 then 25 else 0, 120, 8192⟩, 8⟩

/-- A concrete explicit-list heap with an empty free list, used to witness
the LIFO insertion: one free 16-byte block at bp = 96. -/
def expAddState : Exp.EState := ⟨⟨fun w => if w = 23 then 16 else if w = 24 then 99 else 0, 160, 8192⟩, 0⟩

/-- A concrete buddy heap with one free 16-byte block at bp = 96 whose
predecessor slot holds the stale value 99, and empty free lists. -/
def budAddState : Bud.BState := ⟨⟨fun w => if w = 23 then 16 else if w = 24 then 99 else 0, 160, 8192⟩, 8⟩

end MallocLab

/- ===================== helper lemmas ===================== -/

namespace MallocLab

theorem getW_putW (h : Heap) (a v b : Nat) :
    getW (putW h a v) b = if b / 4 = a / 4 then v else getW h b := rfl

theorem brk_putW (h : Heap) (a v : Nat) : (putW h a v).brk = h.brk := rfl

theorem PACK_zero (s : Nat) : PACK s 0 = s := Nat.or_zero s

theorem GET_ALLOC_eq_mod (w : Nat) : GET_ALLOC w = w % 2 := Nat.and_one_is_mod w

theorem and_mask32 (x : Nat) (hx : x < 2 ^ 32) : x &&& 0xFFFFFFF8 = 8 * (x / 8) := by
  have hm : (0xFFFFFFF8 : Nat) = (2 ^ 29 - 1) <<< 3 := by
    rw [Nat.shiftLeft_eq]
    norm_num
  have hr : 8 * (x / 8) = (x >>> 3) <<< 3 := by
    rw [Nat.shiftRight_eq_div_pow, Nat.shiftLeft_eq]
    have : (2 : Nat) ^ 3 = 8 := by norm_num
    rw [this]
    omega
  rw [hm, hr]
  apply Nat.eq_of_testBit_eq
  intro i
  rw [Nat.testBit_and, Nat.testBit_shiftLeft, Nat.testBit_shiftLeft,
    Nat.testBit_two_pow_sub_one, Nat.testBit_shiftRight]
  rcases Nat.lt_or_ge i 3 with h3 | h3
  · simp [show ¬ 3 ≤ i by omega]
  · rcases Nat.lt_or_ge i 32 with h32 | h32
    · simp [h3, show i - 3 < 29 by omega, show 3 + (i - 3) = i by omega]
    · have hxf : x.testBit i = false :=
        Nat.testBit_lt_two_pow (lt_of_lt_of_le hx (Nat.pow_le_pow_right (by norm_num) h32))
      simp [h3, show ¬ i - 3 < 29 by omega, show 3 + (i - 3) = i by omega, hxf]

theorem GET_SIZE_eq (w : Nat) (hw : w < 2 ^ 32) : GET_SIZE w = 8 * (w / 8) :=
  and_mask32 w hw

theorem GET_SIZE_add_flag (s f : Nat) (hs : s % 8 = 0) (hf : f < 8) (hb : s + f < 2 ^ 32) :
    GET_SIZE (s + f) = s := by
  rw [GET_SIZE.eq_def, and_mask32 _ hb]; omega

theorem GET_ALLOC_add_flag (s f : Nat) (hs : s % 8 = 0) (hf : f ≤ 1) :
    GET_ALLOC (s + f) = f := by
  rw [GET_ALLOC_eq_mod]; omega

theorem le_alignUp8 (m : Nat) : m ≤ alignUp8 m := by
  unfold alignUp8; omega

end MallocLab

namespace MallocLab.Seg

theorem get_class_loop_spec (size : Nat) :
    ∀ fuel i, i + fuel = 21 → 1 ≤ i →
      (1 ≤ get_class_loop size i (2 ^ (i + 3)) fuel) ∧
      (get_class_loop size i (2 ^ (i + 3)) fuel ≤ 19) ∧
      (size ≤ 2 ^ (get_class_loop size i (2 ^ (i + 3)) fuel + 4) ∨
        get_class_loop size i (2 ^ (i + 3)) fuel = 19) ∧
      (∀ j, i ≤ j → j < get_class_loop size i (2 ^ (i + 3)) fuel → 2 ^ (j + 4) < size) := by
  intro fuel
  induction fuel with
  | zero =>
    intro i hi h1
    simp only [get_class_loop]
    exact ⟨by omega, by omega, Or.inr trivial, by omega⟩
  | succ fuel ih =>
    intro i hi h1
    simp only [get_class_loop]
    by_cases hlt : i < 20
    · rw [if_pos hlt]
      have hc : (2 ^ (i + 3)) <<< 1 = 2 ^ (i + 4) := by
        rw [Nat.shiftLeft_eq, pow_one, ← pow_succ]
      by_cases hle : size ≤ 2 ^ (i + 3) <<< 1
      · rw [if_pos hle]
        rw [hc] at hle
        exact ⟨h1, by omega, Or.inl (by omega), by omega⟩
      · rw [if_neg hle]
        rw [hc] at hle
        have hrec := ih (i + 1) (by omega) (by omega)
        have harg : i + 1 + 3 = i + 4 := by omega
        rw [harg] at hrec
        rw [hc]
        refine ⟨by omega, hrec.2.1, hrec.2.2.1, ?_⟩
        intro j hij hjr
        rcases Nat.eq_or_lt_of_le hij with hji | hji
        · subst hji
          omega
        · exact hrec.2.2.2 j (by omega) hjr
    · rw [if_neg hlt]
      exact ⟨by omega, by omega, Or.inr rfl, by omega⟩

theorem get_class_spec (size : Nat) (h16 : 16 ≤ size) :
    1 ≤ (get_class size).toNat ∧ (get_class size).toNat ≤ 19 ∧
    (size ≤ 2 ^ ((get_class size).toNat + 4) ∨ (get_class size).toNat = 19) ∧
    (∀ j : Nat, 1 ≤ j → j < (get_class size).toNat → 2 ^ (j + 4) < size) ∧
    get_class size = ((get_class size).toNat : Int) := by
  unfold get_class
  rw [if_neg (by omega)]
  have h16e : (16 : Nat) = 2 ^ (1 + 3) := by norm_num
  rw [h16e]
  have h := get_class_loop_spec size 20 1 rfl (by omega)
  simp only [Int.toNat_natCast]
  exact ⟨h.1, h.2.1, h.2.2.1, h.2.2.2, trivial⟩

theorem get_class_eq_neg_one_iff (size : Nat) : get_class size = -1 ↔ size < 16 := by
  unfold get_class
  by_cases h : size < 16
  · simp [h]
  · rw [if_neg h]
    constructor
    · intro hc
      exact absurd hc (by omega)
    · intro hc
      exact absurd hc h

end MallocLab.Seg

namespace MallocLab

theorem getW_putW_eq (h : Heap) (a v b : Nat) (he : b / 4 = a / 4) :
    getW (putW h a v) b = v := by
  rw [getW_putW, if_pos he]

theorem getW_putW_ne (h : Heap) (a v b : Nat) (hne : b / 4 ≠ a / 4) :
    getW (putW h a v) b = getW h b := by
  rw [getW_putW, if_neg hne]

theorem GET_SIZE_aligned (s : Nat) (h8 : s % 8 = 0) (hb : s < 2 ^ 32) :
    GET_SIZE s = s := by
  rw [GET_SIZE_eq s hb]; omega

theorem GET_ALLOC_aligned (s : Nat) (h8 : s % 8 = 0) : GET_ALLOC s = 0 := by
  rw [GET_ALLOC_eq_mod]; omega

end MallocLab

namespace MallocLab.Seg

theorem rootAddr_natCast (hlp m : Nat) : rootAddr hlp (↑m) = hlp + 4 * m := by
  unfold rootAddr; omega

end MallocLab.Seg

namespace MallocLab.Seg

theorem coalesce_case2 (s : SState) (pb ps sz ns : Nat)
    (hlp : s.heap_listp = 8)
    (hpb : 96 ≤ pb) (hpb8 : pb % 8 = 0)
    (hps : 16 ≤ ps) (hps8 : ps % 8 = 0) (hpsB : ps < 2 ^ 20)
    (hsz : 16 ≤ sz) (hsz8 : sz % 8 = 0) (hszB : sz < 2 ^ 20)
    (hns : 16 ≤ ns) (hns8 : ns % 8 = 0) (hnsB : ns < 2 ^ 20)
    (hw1 : getW s.heap (pb + ps - 8) = ps + 1)
    (hw2 : getW s.heap (pb - 4) = ps + 1)
    (hw3 : getW s.heap (pb + ps - 4) = sz)
    (hw4 : getW s.heap (pb + ps + sz - 4) = ns)
    (hroot : getW s.heap (8 + 4 * (get_class ns).toNat) = pb + ps + sz)
    (hsucc : getW s.heap (pb + ps + sz + 4) = 0)
    (hothers : ∀ k, k < 20 → k ≠ (get_class ns).toNat → getW s.heap (8 + 4 * k) = 0) :
    (coalesce s (pb + ps)).2 = pb + ps ∧
    getW (coalesce s (pb + ps)).1.heap (pb + ps - 4) = PACK (sz + ns) 0 ∧
    getW (coalesce s (pb + ps)).1.heap (pb + ps + sz + ns - 8) = PACK (sz + ns) 0 ∧
    getW (coalesce s (pb + ps)).1.heap (8 + 4 * (get_class (sz + ns)).toNat) = pb + ps := by
  have h20 : (2 : Nat) ^ 20 = 1048576 := by norm_num
  have h32 : (2 : Nat) ^ 32 = 4294967296 := by norm_num
  obtain ⟨hm1, hm19, -, -, hcast⟩ := get_class_spec ns hns
  obtain ⟨hM1, hM19, -, -, hcastM⟩ := get_class_spec (sz + ns) (by omega)
  have hPREV : PREV_BLKP s.heap (pb + ps) = pb := by
    unfold PREV_BLKP sizeAt
    rw [hw1, GET_SIZE_add_flag ps 1 hps8 (by omega) (by omega)]
    omega
  have hFp : FTRP s.heap pb = pb + ps - 8 := by
    unfold FTRP sizeAt HDRP
    rw [hw2, GET_SIZE_add_flag ps 1 hps8 (by omega) (by omega)]
  have hpa : GET_ALLOC (getW s.heap (FTRP s.heap (PREV_BLKP s.heap (pb + ps)))) = 1 := by
    rw [hPREV, hFp, hw1, GET_ALLOC_add_flag ps 1 hps8 (by omega)]
  have hNEXT : NEXT_BLKP s.heap (pb + ps) = pb + ps + sz := by
    unfold NEXT_BLKP sizeAt HDRP
    rw [hw3, GET_SIZE_aligned sz hsz8 (by omega)]
  have hna : GET_ALLOC (getW s.heap (HDRP (NEXT_BLKP s.heap (pb + ps)))) = 0 := by
    rw [hNEXT]
    unfold HDRP
    rw [hw4, GET_ALLOC_aligned ns hns8]
  have hsize : sizeAt s.heap (HDRP (pb + ps)) = sz := by
    unfold sizeAt HDRP
    rw [hw3, GET_SIZE_aligned sz hsz8 (by omega)]
  have hkns : sizeAt s.heap (HDRP (pb + ps + sz)) = ns := by
    unfold sizeAt HDRP
    rw [hw4, GET_SIZE_aligned ns hns8 (by omega)]
  have hgr : getRoot s (get_class ns) = pb + ps + sz := by
    unfold getRoot
    rw [hlp, hcast, rootAddr_natCast]
    exact hroot
  have hrm0 : remove_free_block s (pb + ps + sz) = setRoot s (get_class ns) 0 := by
    simp only [remove_free_block, hkns]
    rw [if_pos hgr.symm]
    unfold GET_SUCC
    rw [hgr, hsucc]
  have hna2 : GET_ALLOC (getW s.heap (HDRP (pb + ps + sz))) = 0 := by
    unfold HDRP
    rw [hw4, GET_ALLOC_aligned ns hns8]
  have hsrh : (setRoot s (get_class ns) 0).heap =
      putW s.heap (8 + 4 * (get_class ns).toNat) 0 := by
    show putW s.heap (rootAddr s.heap_listp (get_class ns)) 0 = _
    rw [hlp]
    conv_lhs => rw [hcast, rootAddr_natCast]
  have hsrl : (setRoot s (get_class ns) 0).heap_listp = s.heap_listp := rfl
  have hm1next : NEXT_BLKP (putW s.heap (8 + 4 * (get_class ns).toNat) 0) (pb + ps) =
      pb + ps + sz := by
    unfold NEXT_BLKP sizeAt HDRP
    rw [getW_putW, if_neg (by omega), hw3, GET_SIZE_aligned sz hsz8 (by omega)]
  have hm1ns : sizeAt (putW s.heap (8 + 4 * (get_class ns).toNat) 0) (pb + ps + sz - 4) =
      ns := by
    unfold sizeAt
    rw [getW_putW, if_neg (by omega), hw4, GET_SIZE_aligned ns hns8 (by omega)]
  have hF2 : FTRP (putW (putW s.heap (8 + 4 * (get_class ns).toNat) 0)
      (pb + ps - 4) (PACK (sz + ns) 0)) (pb + ps) = pb + ps + sz + ns - 8 := by
    unfold FTRP sizeAt HDRP
    rw [getW_putW, if_pos rfl, PACK_zero, GET_SIZE_aligned (sz + ns) (by omega) (by omega)]
    omega
  have hco : coalesce s (pb + ps) =
      (add_free_block
        ⟨putW (putW (putW s.heap (8 + 4 * (get_class ns).toNat) 0)
            (pb + ps - 4) (PACK (sz + ns) 0))
          (pb + ps + sz + ns - 8) (PACK (sz + ns) 0), s.heap_listp⟩
        (pb + ps), pb + ps) := by
    simp only [coalesce, hpa, hna2, hsize, hNEXT, hrm0]
    rw [if_neg (by simp), if_pos (by simp)]
    simp only [hsrh, hsrl, hm1next, hm1ns, hF2, HDRP]
  have hk3 : sizeAt (putW (putW (putW s.heap (8 + 4 * (get_class ns).toNat) 0)
      (pb + ps - 4) (PACK (sz + ns) 0)) (pb + ps + sz + ns - 8) (PACK (sz + ns) 0))
      (HDRP (pb + ps)) = sz + ns := by
    unfold sizeAt HDRP
    rw [getW_putW, if_neg (by omega), getW_putW, if_pos rfl, PACK_zero,
      GET_SIZE_aligned (sz + ns) (by omega) (by omega)]
  have hra : rootAddr s.heap_listp (get_class (sz + ns)) =
      8 + 4 * (get_class (sz + ns)).toNat := by
    rw [hlp]
    conv_lhs => rw [hcastM, rootAddr_natCast]
  have hr3 : getW (putW (putW (putW s.heap (8 + 4 * (get_class ns).toNat) 0)
      (pb + ps - 4) (PACK (sz + ns) 0)) (pb + ps + sz + ns - 8) (PACK (sz + ns) 0))
      (8 + 4 * (get_class (sz + ns)).toNat) = 0 := by
    rw [getW_putW, if_neg (by omega), getW_putW, if_neg (by omega)]
    by_cases hEq : (get_class (sz + ns)).toNat = (get_class ns).toNat
    · rw [hEq, getW_putW, if_pos rfl]
    · rw [getW_putW, if_neg (by omega)]
      exact hothers _ (by omega) hEq
  have hadd : add_free_block
      ⟨putW (putW (putW s.heap (8 + 4 * (get_class ns).toNat) 0)
          (pb + ps - 4) (PACK (sz + ns) 0))
        (pb + ps + sz + ns - 8) (PACK (sz + ns) 0), s.heap_listp⟩ (pb + ps) =
      ⟨putW (putW (putW (putW (putW s.heap (8 + 4 * (get_class ns).toNat) 0)
          (pb + ps - 4) (PACK (sz + ns) 0))
        (pb + ps + sz + ns - 8) (PACK (sz + ns) 0))
        (pb + ps + 4) 0)
        (8 + 4 * (get_class (sz + ns)).toNat) (pb + ps), s.heap_listp⟩ := by
    simp only [add_free_block, getRoot, setRoot, hk3, hra, hr3]
    rw [if_neg (by
      rw [getW_putW, if_neg (by omega), hr3]
      simp)]
    simp only [hra]
  rw [hco, hadd]
  refine ⟨rfl, ?_, ?_, ?_⟩
  · show getW _ (pb + ps - 4) = _
    rw [getW_putW, if_neg (by omega), getW_putW, if_neg (by omega),
      getW_putW, if_neg (by omega), getW_putW, if_pos rfl]
  · show getW _ (pb + ps + sz + ns - 8) = _
    rw [getW_putW, if_neg (by omega), getW_putW, if_neg (by omega),
      getW_putW, if_pos rfl]
  · show getW _ (8 + 4 * (get_class (sz + ns)).toNat) = _
    rw [getW_putW, if_pos rfl]

end MallocLab.Seg

namespace MallocLab.Seg

theorem coalesce_case1 (s : SState) (pb ps sz ns : Nat)
    (hlp : s.heap_listp = 8)
    (hpb : 96 ≤ pb) (hpb8 : pb % 8 = 0)
    (hps : 16 ≤ ps) (hps8 : ps % 8 = 0) (hpsB : ps < 2 ^ 20)
    (hsz : 16 ≤ sz) (hsz8 : sz % 8 = 0) (hszB : sz < 2 ^ 20)
    (hns : 16 ≤ ns) (hns8 : ns % 8 = 0) (hnsB : ns < 2 ^ 20)
    (hw1 : getW s.heap (pb + ps - 8) = ps + 1)
    (hw2 : getW s.heap (pb - 4) = ps + 1)
    (hw3 : getW s.heap (pb + ps - 4) = sz)
    (hw4 : getW s.heap (pb + ps + sz - 4) = ns + 1)
    (hempty : ∀ k, k < 20 → getW s.heap (8 + 4 * k) = 0) :
    (coalesce s (pb + ps)).2 = pb + ps ∧
    getW (coalesce s (pb + ps)).1.heap (pb + ps - 4) = sz ∧
    getW (coalesce s (pb + ps)).1.heap (8 + 4 * (get_class sz).toNat) = pb + ps := by
  have h20 : (2 : Nat) ^ 20 = 1048576 := by norm_num
  have h32 : (2 : Nat) ^ 32 = 4294967296 := by norm_num
  obtain ⟨hm1, hm19, -, -, hcast⟩ := get_class_spec sz hsz
  have hPREV : PREV_BLKP s.heap (pb + ps) = pb := by
    unfold PREV_BLKP sizeAt
    rw [hw1, GET_SIZE_add_flag ps 1 hps8 (by omega) (by omega)]
    omega
  have hFp : FTRP s.heap pb = pb + ps - 8 := by
    unfold FTRP sizeAt HDRP
    rw [hw2, GET_SIZE_add_flag ps 1 hps8 (by omega) (by omega)]
  have hpa : GET_ALLOC (getW s.heap (FTRP s.heap (PREV_BLKP s.heap (pb + ps)))) = 1 := by
    rw [hPREV, hFp, hw1, GET_ALLOC_add_flag ps 1 hps8 (by omega)]
  have hNEXT : NEXT_BLKP s.heap (pb + ps) = pb + ps + sz := by
    unfold NEXT_BLKP sizeAt HDRP
    rw [hw3, GET_SIZE_aligned sz hsz8 (by omega)]
  have hna2 : GET_ALLOC (getW s.heap (HDRP (pb + ps + sz))) = 1 := by
    unfold HDRP
    rw [hw4, GET_ALLOC_add_flag ns 1 hns8 (by omega)]
  have hk : sizeAt s.heap (HDRP (pb + ps)) = sz := by
    unfold sizeAt HDRP
    rw [hw3, GET_SIZE_aligned sz hsz8 (by omega)]
  have hra : rootAddr s.heap_listp (get_class sz) = 8 + 4 * (get_class sz).toNat := by
    rw [hlp]
    conv_lhs => rw [hcast, rootAddr_natCast]
  have hr0 : getW s.heap (8 + 4 * (get_class sz).toNat) = 0 :=
    hempty _ (by omega)
  have hadd : add_free_block s (pb + ps) =
      ⟨putW (putW s.heap (pb + ps + 4) 0)
        (8 + 4 * (get_class sz).toNat) (pb + ps), s.heap_listp⟩ := by
    simp only [add_free_block, getRoot, setRoot, hk, hra, hr0]
    rw [if_neg (by
      rw [getW_putW, if_neg (by omega), hr0]
      simp)]
    simp only [hra]
  have hco : coalesce s (pb + ps) = (add_free_block s (pb + ps), pb + ps) := by
    simp only [coalesce, hpa, hna2, hNEXT]
    rw [if_pos (by simp)]
  rw [hco, hadd]
  refine ⟨rfl, ?_, ?_⟩
  · show getW _ (pb + ps - 4) = _
    rw [getW_putW, if_neg (by omega), getW_putW, if_neg (by omega)]
    exact hw3
  · show getW _ (8 + 4 * (get_class sz).toNat) = _
    rw [getW_putW, if_pos rfl]

end MallocLab.Seg

namespace MallocLab.Seg

theorem coalesce_case3 (s : SState) (pb ps sz ns : Nat)
    (hlp : s.heap_listp = 8)
    (hpb : 96 ≤ pb) (hpb8 : pb % 8 = 0)
    (hps : 16 ≤ ps) (hps8 : ps % 8 = 0) (hpsB : ps < 2 ^ 20)
    (hsz : 16 ≤ sz) (hsz8 : sz % 8 = 0) (hszB : sz < 2 ^ 20)
    (hns : 16 ≤ ns) (hns8 : ns % 8 = 0) (hnsB : ns < 2 ^ 20)
    (hw1 : getW s.heap (pb + ps - 8) = ps)
    (hw2 : getW s.heap (pb - 4) = ps)
    (hw3 : getW s.heap (pb + ps - 4) = sz)
    (hw4 : getW s.heap (pb + ps + sz - 4) = ns + 1)
    (hroot : getW s.heap (8 + 4 * (get_class ps).toNat) = pb)
    (hsucc : getW s.heap (pb + 4) = 0)
    (hothers : ∀ k, k < 20 → k ≠ (get_class ps).toNat → getW s.heap (8 + 4 * k) = 0) :
    (coalesce s (pb + ps)).2 = pb ∧
    getW (coalesce s (pb + ps)).1.heap (pb - 4) = PACK (sz + ps) 0 ∧
    getW (coalesce s (pb + ps)).1.heap (pb + ps + sz - 8) = PACK (sz + ps) 0 ∧
    getW (coalesce s (pb + ps)).1.heap (8 + 4 * (get_class (sz + ps)).toNat) = pb := by
  have h20 : (2 : Nat) ^ 20 = 1048576 := by norm_num
  have h32 : (2 : Nat) ^ 32 = 4294967296 := by norm_num
  obtain ⟨hm1, hm19, -, -, hcast⟩ := get_class_spec ps hps
  obtain ⟨hM1, hM19, -, -, hcastM⟩ := get_class_spec (sz + ps) (by omega)
  have hPREV : PREV_BLKP s.heap (pb + ps) = pb := by
    unfold PREV_BLKP sizeAt
    rw [hw1, GET_SIZE_aligned ps hps8 (by omega)]
    omega
  have hFp : FTRP s.heap pb = pb + ps - 8 := by
    unfold FTRP sizeAt HDRP
    rw [hw2, GET_SIZE_aligned ps hps8 (by omega)]
  have hpa2 : GET_ALLOC (getW s.heap (FTRP s.heap pb)) = 0 := by
    rw [hFp, hw1, GET_ALLOC_aligned ps hps8]
  have hNEXT : NEXT_BLKP s.heap (pb + ps) = pb + ps + sz := by
    unfold NEXT_BLKP sizeAt HDRP
    rw [hw3, GET_SIZE_aligned sz hsz8 (by omega)]
  have hna2 : GET_ALLOC (getW s.heap (HDRP (pb + ps + sz))) = 1 := by
    unfold HDRP
    rw [hw4, GET_ALLOC_add_flag ns 1 hns8 (by omega)]
  have hsize : sizeAt s.heap (HDRP (pb + ps)) = sz := by
    unfold sizeAt HDRP
    rw [hw3, GET_SIZE_aligned sz hsz8 (by omega)]
  have hkps : sizeAt s.heap (HDRP pb) = ps := by
    unfold sizeAt HDRP
    rw [hw2, GET_SIZE_aligned ps hps8 (by omega)]
  have hgr : getRoot s (get_class ps) = pb := by
    unfold getRoot
    rw [hlp, hcast, rootAddr_natCast]
    exact hroot
  have hrm0 : remove_free_block s pb = setRoot s (get_class ps) 0 := by
    simp only [remove_free_block, hkps]
    rw [if_pos hgr.symm]
    unfold GET_SUCC
    rw [hgr, hsucc]
  have hsrh : (setRoot s (get_class ps) 0).heap =
      putW s.heap (8 + 4 * (get_class ps).toNat) 0 := by
    show putW s.heap (rootAddr s.heap_listp (get_class ps)) 0 = _
    rw [hlp]
    conv_lhs => rw [hcast, rootAddr_natCast]
  have hsrl : (setRoot s (get_class ps) 0).heap_listp = s.heap_listp := rfl
  have hm1prev : PREV_BLKP (putW s.heap (8 + 4 * (get_class ps).toNat) 0) (pb + ps) = pb := by
    unfold PREV_BLKP sizeAt
    rw [getW_putW, if_neg (by omega), hw1, GET_SIZE_aligned ps hps8 (by omega)]
    omega
  have hm1ps : sizeAt (putW s.heap (8 + 4 * (get_class ps).toNat) 0) (pb - 4) = ps := by
    unfold sizeAt
    rw [getW_putW, if_neg (by omega), hw2, GET_SIZE_aligned ps hps8 (by omega)]
  have hm1F : FTRP (putW s.heap (8 + 4 * (get_class ps).toNat) 0) (pb + ps) =
      pb + ps + sz - 8 := by
    unfold FTRP sizeAt HDRP
    rw [getW_putW, if_neg (by omega), hw3, GET_SIZE_aligned sz hsz8 (by omega)]
  have hm2prev : PREV_BLKP (putW (putW s.heap (8 + 4 * (get_class ps).toNat) 0)
      (pb + ps + sz - 8) (PACK (sz + ps) 0)) (pb + ps) = pb := by
    unfold PREV_BLKP sizeAt
    rw [getW_putW, if_neg (by omega), getW_putW, if_neg (by omega), hw1,
      GET_SIZE_aligned ps hps8 (by omega)]
    omega
  have hco : coalesce s (pb + ps) =
      (add_free_block
        ⟨putW (putW (putW s.heap (8 + 4 * (get_class ps).toNat) 0)
            (pb + ps + sz - 8) (PACK (sz + ps) 0))
          (pb - 4) (PACK (sz + ps) 0), s.heap_listp⟩
        (PREV_BLKP (putW (putW (putW s.heap (8 + 4 * (get_class ps).toNat) 0)
            (pb + ps + sz - 8) (PACK (sz + ps) 0))
          (pb - 4) (PACK (sz + ps) 0)) (pb + ps)),
        PREV_BLKP (putW (putW (putW s.heap (8 + 4 * (get_class ps).toNat) 0)
            (pb + ps + sz - 8) (PACK (sz + ps) 0))
          (pb - 4) (PACK (sz + ps) 0)) (pb + ps)) := by
    simp only [coalesce, hpa2, hna2, hsize, hNEXT, hPREV, hrm0]
    rw [if_neg (by simp), if_neg (by simp), if_pos (by simp)]
    simp only [hsrh, hsrl, hm1prev, hm1ps, hm1F, hm2prev, HDRP]
  have hm3prev : PREV_BLKP (putW (putW (putW s.heap (8 + 4 * (get_class ps).toNat) 0)
      (pb + ps + sz - 8) (PACK (sz + ps) 0))
      (pb - 4) (PACK (sz + ps) 0)) (pb + ps) = pb := by
    unfold PREV_BLKP sizeAt
    rw [getW_putW, if_neg (by omega), getW_putW, if_neg (by omega),
      getW_putW, if_neg (by omega), hw1, GET_SIZE_aligned ps hps8 (by omega)]
    omega
  have hk3 : sizeAt (putW (putW (putW s.heap (8 + 4 * (get_class ps).toNat) 0)
      (pb + ps + sz - 8) (PACK (sz + ps) 0))
      (pb - 4) (PACK (sz + ps) 0)) (HDRP pb) = sz + ps := by
    unfold sizeAt HDRP
    rw [getW_putW, if_pos rfl, PACK_zero, GET_SIZE_aligned (sz + ps) (by omega) (by omega)]
  have hra : rootAddr s.heap_listp (get_class (sz + ps)) =
      8 + 4 * (get_class (sz + ps)).toNat := by
    rw [hlp]
    conv_lhs => rw [hcastM, rootAddr_natCast]
  have hr3 : getW (putW (putW (putW s.heap (8 + 4 * (get_class ps).toNat) 0)
      (pb + ps + sz - 8) (PACK (sz + ps) 0))
      (pb - 4) (PACK (sz + ps) 0)) (8 + 4 * (get_class (sz + ps)).toNat) = 0 := by
    rw [getW_putW, if_neg (by omega), getW_putW, if_neg (by omega)]
    by_cases hEq : (get_class (sz + ps)).toNat = (get_class ps).toNat
    · rw [hEq, getW_putW, if_pos rfl]
    · rw [getW_putW, if_neg (by omega)]
      exact hothers _ (by omega) hEq
  have hadd : add_free_block
      ⟨putW (putW (putW s.heap (8 + 4 * (get_class ps).toNat) 0)
          (pb + ps + sz - 8) (PACK (sz + ps) 0))
        (pb - 4) (PACK (sz + ps) 0), s.heap_listp⟩ pb =
      ⟨putW (putW (putW (putW (putW s.heap (8 + 4 * (get_class ps).toNat) 0)
          (pb + ps + sz - 8) (PACK (sz + ps) 0))
        (pb - 4) (PACK (sz + ps) 0))
        (pb + 4) 0)
        (8 + 4 * (get_class (sz + ps)).toNat) pb, s.heap_listp⟩ := by
    simp only [add_free_block, getRoot, setRoot, hk3, hra, hr3]
    rw [if_neg (by
      rw [getW_putW, if_neg (by omega), hr3]
      simp)]
    simp only [hra]
  rw [hco, hm3prev, hadd]
  refine ⟨rfl, ?_, ?_, ?_⟩
  · show getW _ (pb - 4) = _
    rw [getW_putW, if_neg (by omega), getW_putW, if_neg (by omega),
      getW_putW, if_pos rfl]
  · show getW _ (pb + ps + sz - 8) = _
    rw [getW_putW, if_neg (by omega), getW_putW, if_neg (by omega),
      getW_putW, if_neg (by omega), getW_putW, if_pos rfl]
  · show getW _ (8 + 4 * (get_class (sz + ps)).toNat) = _
    rw [getW_putW, if_pos rfl]

end MallocLab.Seg

namespace MallocLab.Seg

theorem coalesce_case4 (s : SState) (pb ps sz ns : Nat)
    (hlp : s.heap_listp = 8)
    (hpb : 96 ≤ pb) (hpb8 : pb % 8 = 0)
    (hps : 16 ≤ ps) (hps8 : ps % 8 = 0) (hpsB : ps < 2 ^ 20)
    (hsz : 16 ≤ sz) (hsz8 : sz % 8 = 0) (hszB : sz < 2 ^ 20)
    (hns : 16 ≤ ns) (hns8 : ns % 8 = 0) (hnsB : ns < 2 ^ 20)
    (hw1 : getW s.heap (pb + ps - 8) = ps)
    (hw2 : getW s.heap (pb - 4) = ps)
    (hw3 : getW s.heap (pb + ps - 4) = sz)
    (hw4 : getW s.heap (pb + ps + sz - 4) = ns)
    (hw5 : getW s.heap (pb + ps + sz + ns - 8) = ns)
    (hPneN : (get_class ps).toNat ≠ (get_class ns).toNat)
    (hrootP : getW s.heap (8 + 4 * (get_class ps).toNat) = pb)
    (hrootN : getW s.heap (8 + 4 * (get_class ns).toNat) = pb + ps + sz)
    (hsuccP : getW s.heap (pb + 4) = 0)
    (hsuccN : getW s.heap (pb + ps + sz + 4) = 0)
    (hothers : ∀ k, k < 20 → k ≠ (get_class ps).toNat → k ≠ (get_class ns).toNat →
      getW s.heap (8 + 4 * k) = 0) :
    (coalesce s (pb + ps)).2 = pb ∧
    getW (coalesce s (pb + ps)).1.heap (pb - 4) = PACK (sz + ps + ns) 0 ∧
    getW (coalesce s (pb + ps)).1.heap (pb + ps + sz + ns - 8) = PACK (sz + ps + ns) 0 ∧
    getW (coalesce s (pb + ps)).1.heap (8 + 4 * (get_class (sz + ps + ns)).toNat) = pb := by
  have h20 : (2 : Nat) ^ 20 = 1048576 := by norm_num
  have h32 : (2 : Nat) ^ 32 = 4294967296 := by norm_num
  obtain ⟨hmP1, hmP19, -, -, hcastP⟩ := get_class_spec ps hps
  obtain ⟨hmN1, hmN19, -, -, hcastN⟩ := get_class_spec ns hns
  obtain ⟨hMT1, hMT19, -, -, hcastT⟩ := get_class_spec (sz + ps + ns) (by omega)
  have hPREV : PREV_BLKP s.heap (pb + ps) = pb := by
    unfold PREV_BLKP sizeAt
    rw [hw1, GET_SIZE_aligned ps hps8 (by omega)]
    omega
  have hFp : FTRP s.heap pb = pb + ps - 8 := by
    unfold FTRP sizeAt HDRP
    rw [hw2, GET_SIZE_aligned ps hps8 (by omega)]
  have hpa2 : GET_ALLOC (getW s.heap (FTRP s.heap pb)) = 0 := by
    rw [hFp, hw1, GET_ALLOC_aligned ps hps8]
  have hNEXT : NEXT_BLKP s.heap (pb + ps) = pb + ps + sz := by
    unfold NEXT_BLKP sizeAt HDRP
    rw [hw3, GET_SIZE_aligned sz hsz8 (by omega)]
  have hna3 : GET_ALLOC (getW s.heap (pb + ps + sz - 4)) = 0 := by
    rw [hw4, GET_ALLOC_aligned ns hns8]
  have hsize2 : sizeAt s.heap (pb + ps - 4) = sz := by
    unfold sizeAt
    rw [hw3, GET_SIZE_aligned sz hsz8 (by omega)]
  have hkps : sizeAt s.heap (HDRP pb) = ps := by
    unfold sizeAt HDRP
    rw [hw2, GET_SIZE_aligned ps hps8 (by omega)]
  have hgrP : getRoot s (get_class ps) = pb := by
    unfold getRoot
    rw [hlp, hcastP, rootAddr_natCast]
    exact hrootP
  have hrm0P : remove_free_block s pb = setRoot s (get_class ps) 0 := by
    simp only [remove_free_block, hkps]
    rw [if_pos hgrP.symm]
    unfold GET_SUCC
    rw [hgrP, hsuccP]
  have hsrP : setRoot s (get_class ps) 0 =
      ⟨putW s.heap (8 + 4 * (get_class ps).toNat) 0, s.heap_listp⟩ := by
    show (⟨putW s.heap (rootAddr s.heap_listp (get_class ps)) 0, s.heap_listp⟩ : SState) = _
    rw [hlp]
    conv_lhs => rw [hcastP, rootAddr_natCast]
  have hm1next : NEXT_BLKP (putW s.heap (8 + 4 * (get_class ps).toNat) 0) (pb + ps) =
      pb + ps + sz := by
    unfold NEXT_BLKP sizeAt HDRP
    rw [getW_putW, if_neg (by omega), hw3, GET_SIZE_aligned sz hsz8 (by omega)]
  have hkns1 : sizeAt (putW s.heap (8 + 4 * (get_class ps).toNat) 0)
      (HDRP (pb + ps + sz)) = ns := by
    unfold sizeAt HDRP
    rw [getW_putW, if_neg (by omega), hw4, GET_SIZE_aligned ns hns8 (by omega)]
  have hgrN : getRoot (⟨putW s.heap (8 + 4 * (get_class ps).toNat) 0, s.heap_listp⟩ : SState)
      (get_class ns) = pb + ps + sz := by
    unfold getRoot
    show getW _ (rootAddr s.heap_listp (get_class ns)) = _
    rw [hlp, hcastN, rootAddr_natCast, getW_putW, if_neg (by omega)]
    exact hrootN
  have hrm0N : remove_free_block
      (⟨putW s.heap (8 + 4 * (get_class ps).toNat) 0, s.heap_listp⟩ : SState) (pb + ps + sz) =
      setRoot (⟨putW s.heap (8 + 4 * (get_class ps).toNat) 0, s.heap_listp⟩ : SState)
        (get_class ns) 0 := by
    simp only [remove_free_block, hkns1]
    rw [if_pos hgrN.symm]
    unfold GET_SUCC
    rw [hgrN]
    show setRoot _ _ (getW (putW s.heap (8 + 4 * (get_class ps).toNat) 0)
      (pb + ps + sz + 4)) = _
    rw [getW_putW, if_neg (by omega), hsuccN]
  have hsrN : setRoot (⟨putW s.heap (8 + 4 * (get_class ps).toNat) 0, s.heap_listp⟩ : SState)
      (get_class ns) 0 =
      ⟨putW (putW s.heap (8 + 4 * (get_class ps).toNat) 0)
        (8 + 4 * (get_class ns).toNat) 0, s.heap_listp⟩ := by
    show (⟨putW (putW s.heap (8 + 4 * (get_class ps).toNat) 0)
      (rootAddr s.heap_listp (get_class ns)) 0, s.heap_listp⟩ : SState) = _
    rw [hlp]
    conv_lhs => rw [hcastN, rootAddr_natCast]
  have hm2prev : PREV_BLKP (putW (putW s.heap (8 + 4 * (get_class ps).toNat) 0)
      (8 + 4 * (get_class ns).toNat) 0) (pb + ps) = pb := by
    unfold PREV_BLKP sizeAt
    rw [getW_putW, if_neg (by omega), getW_putW, if_neg (by omega), hw1,
      GET_SIZE_aligned ps hps8 (by omega)]
    omega
  have hm2ps : sizeAt (putW (putW s.heap (8 + 4 * (get_class ps).toNat) 0)
      (8 + 4 * (get_class ns).toNat) 0) (pb - 4) = ps := by
    unfold sizeAt
    rw [getW_putW, if_neg (by omega), getW_putW, if_neg (by omega), hw2,
      GET_SIZE_aligned ps hps8 (by omega)]
  have hm2next : NEXT_BLKP (putW (putW s.heap (8 + 4 * (get_class ps).toNat) 0)
      (8 + 4 * (get_class ns).toNat) 0) (pb + ps) = pb + ps + sz := by
    unfold NEXT_BLKP sizeAt HDRP
    rw [getW_putW, if_neg (by omega), getW_putW, if_neg (by omega), hw3,
      GET_SIZE_aligned sz hsz8 (by omega)]
  have hm2f : FTRP (putW (putW s.heap (8 + 4 * (get_class ps).toNat) 0)
      (8 + 4 * (get_class ns).toNat) 0) (pb + ps + sz) = pb + ps + sz + ns - 8 := by
    unfold FTRP sizeAt HDRP
    rw [getW_putW, if_neg (by omega), getW_putW, if_neg (by omega), hw4,
      GET_SIZE_aligned ns hns8 (by omega)]
  have hm2fsv : sizeAt (putW (putW s.heap (8 + 4 * (get_class ps).toNat) 0)
      (8 + 4 * (get_class ns).toNat) 0) (pb + ps + sz + ns - 8) = ns := by
    unfold sizeAt
    rw [getW_putW, if_neg (by omega), getW_putW, if_neg (by omega), hw5,
      GET_SIZE_aligned ns hns8 (by omega)]
  have hm3next : NEXT_BLKP (putW (putW (putW s.heap (8 + 4 * (get_class ps).toNat) 0)
      (8 + 4 * (get_class ns).toNat) 0) (pb - 4) (PACK (sz + ps + ns) 0)) (pb + ps) =
      pb + ps + sz := by
    unfold NEXT_BLKP sizeAt HDRP
    rw [getW_putW, if_neg (by omega), getW_putW, if_neg (by omega),
      getW_putW, if_neg (by omega), hw3, GET_SIZE_aligned sz hsz8 (by omega)]
  have hm3f : FTRP (putW (putW (putW s.heap (8 + 4 * (get_class ps).toNat) 0)
      (8 + 4 * (get_class ns).toNat) 0) (pb - 4) (PACK (sz + ps + ns) 0)) (pb + ps + sz) =
      pb + ps + sz + ns - 8 := by
    unfold FTRP sizeAt HDRP
    rw [getW_putW, if_neg (by omega), getW_putW, if_neg (by omega),
      getW_putW, if_neg (by omega), hw4, GET_SIZE_aligned ns hns8 (by omega)]
  have hm4prev : PREV_BLKP (putW (putW (putW (putW s.heap
      (8 + 4 * (get_class ps).toNat) 0) (8 + 4 * (get_class ns).toNat) 0)
      (pb - 4) (PACK (sz + ps + ns) 0)) (pb + ps + sz + ns - 8) (PACK (sz + ps + ns) 0))
      (pb + ps) = pb := by
    unfold PREV_BLKP sizeAt
    rw [getW_putW, if_neg (by omega), getW_putW, if_neg (by omega),
      getW_putW, if_neg (by omega), getW_putW, if_neg (by omega), hw1,
      GET_SIZE_aligned ps hps8 (by omega)]
    omega
  have hco : coalesce s (pb + ps) =
      (add_free_block
        ⟨putW (putW (putW (putW s.heap (8 + 4 * (get_class ps).toNat) 0)
            (8 + 4 * (get_class ns).toNat) 0)
          (pb - 4) (PACK (sz + ps + ns) 0))
          (pb + ps + sz + ns - 8) (PACK (sz + ps + ns) 0), s.heap_listp⟩
        pb, pb) := by
    simp only [coalesce, HDRP, hpa2, hna3, hsize2, hNEXT, hPREV, hrm0P, hsrP, hm1next,
      hrm0N, hsrN, hm2prev, hm2ps, hm2next, hm2f, hm2fsv, hm3next, hm3f, hm4prev]
    rw [if_neg (by simp), if_neg (by simp), if_neg (by simp)]
  have hk3 : sizeAt (putW (putW (putW (putW s.heap (8 + 4 * (get_class ps).toNat) 0)
      (8 + 4 * (get_class ns).toNat) 0) (pb - 4) (PACK (sz + ps + ns) 0))
      (pb + ps + sz + ns - 8) (PACK (sz + ps + ns) 0)) (HDRP pb) = sz + ps + ns := by
    unfold sizeAt HDRP
    rw [getW_putW, if_neg (by omega), getW_putW, if_pos rfl, PACK_zero,
      GET_SIZE_aligned (sz + ps + ns) (by omega) (by omega)]
  have hra : rootAddr s.heap_listp (get_class (sz + ps + ns)) =
      8 + 4 * (get_class (sz + ps + ns)).toNat := by
    rw [hlp]
    conv_lhs => rw [hcastT, rootAddr_natCast]
  have hr3 : getW (putW (putW (putW (putW s.heap (8 + 4 * (get_class ps).toNat) 0)
      (8 + 4 * (get_class ns).toNat) 0) (pb - 4) (PACK (sz + ps + ns) 0))
      (pb + ps + sz + ns - 8) (PACK (sz + ps + ns) 0))
      (8 + 4 * (get_class (sz + ps + ns)).toNat) = 0 := by
    rw [getW_putW, if_neg (by omega), getW_putW, if_neg (by omega)]
    by_cases hEqN : (get_class (sz + ps + ns)).toNat = (get_class ns).toNat
    · rw [hEqN, getW_putW, if_pos rfl]
    · rw [getW_putW, if_neg (by omega)]
      by_cases hEqP : (get_class (sz + ps + ns)).toNat = (get_class ps).toNat
      · rw [hEqP, getW_putW, if_pos rfl]
      · rw [getW_putW, if_neg (by omega)]
        exact hothers _ (by omega) hEqP hEqN
  have hadd : add_free_block
      ⟨putW (putW (putW (putW s.heap (8 + 4 * (get_class ps).toNat) 0)
          (8 + 4 * (get_class ns).toNat) 0) (pb - 4) (PACK (sz + ps + ns) 0))
        (pb + ps + sz + ns - 8) (PACK (sz + ps + ns) 0), s.heap_listp⟩ pb =
      ⟨putW (putW (putW (putW (putW (putW s.heap (8 + 4 * (get_class ps).toNat) 0)
          (8 + 4 * (get_class ns).toNat) 0) (pb - 4) (PACK (sz + ps + ns) 0))
        (pb + ps + sz + ns - 8) (PACK (sz + ps + ns) 0))
        (pb + 4) 0)
        (8 + 4 * (get_class (sz + ps + ns)).toNat) pb, s.heap_listp⟩ := by
    simp only [add_free_block, getRoot, setRoot, hk3, hra, hr3]
    rw [if_neg (by
      rw [getW_putW, if_neg (by omega), hr3]
      simp)]
    simp only [hra]
  rw [hco, hadd]
  refine ⟨rfl, ?_, ?_, ?_⟩
  · show getW _ (pb - 4) = _
    rw [getW_putW, if_neg (by omega), getW_putW, if_neg (by omega),
      getW_putW, if_neg (by omega), getW_putW, if_pos rfl]
  · show getW _ (pb + ps + sz + ns - 8) = _
    rw [getW_putW, if_neg (by omega), getW_putW, if_neg (by omega),
      getW_putW, if_pos rfl]
  · show getW _ (8 + 4 * (get_class (sz + ps + ns)).toNat) = _
    rw [getW_putW, if_pos rfl]

end MallocLab.Seg

/- ===================== claim theorems ===================== -/

namespace MallocLab

/-- C2 counterexample: the claim says class_of(16) = 0 (the smallest i with
16 ≤ 2^(i+4) is 0), but the segregated-fit get_class starts its scan at
index 1 and returns 1 for size 16: class 0 is never used. -/
theorem c2_counterexample :
    Seg.get_class 16 = 1 ∧ (16 : Nat) ≤ 2 ^ (0 + 4) ∧ Seg.get_class 16 ≠ 0 := by
  constructor
  · decide
  · constructor
    · decide
    · decide

/-- C2 (amended): for every block size ≥ 16 the segregated-fit get_class
returns the smallest index i ≥ 1 with size ≤ 2^(i+4), capped at 19 (any
size beyond the largest class falls into class 19); class 0 is never
returned, and in particular get_class(16) = 1, not 0. -/
theorem c2_get_class_amended (size : Nat) (h16 : 16 ≤ size) :
    1 ≤ (Seg.get_class size).toNat ∧ (Seg.get_class size).toNat ≤ 19 ∧
    (size ≤ 2 ^ ((Seg.get_class size).toNat + 4) ∨ (Seg.get_class size).toNat = 19) ∧
    (∀ j : Nat, 1 ≤ j → j < (Seg.get_class size).toNat → 2 ^ (j + 4) < size) ∧
    Seg.get_class 16 = 1 := by
  have h := Seg.get_class_spec size h16
  exact ⟨h.1, h.2.1, h.2.2.1, h.2.2.2.1, by decide⟩

/-- C2 witness: the amended characterisation evaluated at size 100
(class 3, since 64 < 100 ≤ 128). -/
theorem c2_get_class_amended_witness :
    1 ≤ (Seg.get_class 100).toNat ∧ (Seg.get_class 100).toNat ≤ 19 ∧
    (100 ≤ 2 ^ ((Seg.get_class 100).toNat + 4) ∨ (Seg.get_class 100).toNat = 19) ∧
    (∀ j : Nat, 1 ≤ j → j < (Seg.get_class 100).toNat → 2 ^ (j + 4) < 100) ∧
    Seg.get_class 16 = 1 :=
  c2_get_class_amended 100 (by decide)

/-- C10: for every block size that reaches add_free_block or
remove_free_block (size ≥ 16 by the size floor), the segregated-fit
get_class returns an index with 1 ≤ index ≤ 19, a genuine Nat, and the
GET_ROOT byte address heap_listp + 4*index stays within the 20-entry root
array (bytes 8 .. 84 for heap_listp = 8); the out-of-range value -1 is
returned exactly for sizes below 16, which never occur in list
operations. -/
theorem c10_get_class_in_range (size : Nat) :
    (16 ≤ size →
      1 ≤ (Seg.get_class size).toNat ∧ (Seg.get_class size).toNat ≤ 19 ∧
      Seg.get_class size = ((Seg.get_class size).toNat : Int) ∧
      8 ≤ Seg.rootAddr 8 (Seg.get_class size) ∧
      Seg.rootAddr 8 (Seg.get_class size) ≤ 8 + 4 * 19) ∧
    (Seg.get_class size = -1 ↔ size < 16) := by
  constructor
  · intro h16
    obtain ⟨h1, h19, -, -, hcast⟩ := Seg.get_class_spec size h16
    refine ⟨h1, h19, hcast, ?_, ?_⟩
    · rw [hcast, Seg.rootAddr_natCast]
      omega
    · rw [hcast, Seg.rootAddr_natCast]
      omega
  · exact Seg.get_class_eq_neg_one_iff size

/-- C10 witness: in-range indices at the minimum block size 16 (class 1)
and a large size (class 19). -/
theorem c10_get_class_in_range_witness :
    (1 ≤ (Seg.get_class 16).toNat ∧ (Seg.get_class 16).toNat ≤ 19 ∧
      Seg.get_class 16 = ((Seg.get_class 16).toNat : Int) ∧
      8 ≤ Seg.rootAddr 8 (Seg.get_class 16) ∧
      Seg.rootAddr 8 (Seg.get_class 16) ≤ 8 + 4 * 19) ∧
    (Seg.get_class 15 = -1 ↔ 15 < 16) :=
  ⟨(c10_get_class_in_range 16).1 (by decide), (c10_get_class_in_range 15).2⟩

end MallocLab

namespace MallocLab

/-- C9: reallocate(bp, 0) never frees the block in the explicit and
segregated-fit variants: the explicit variant returns bp itself with the
entire state unchanged (the new adjusted size 0 + DSIZE = 8 is at most the
block size), and the segregated-fit variant returns the null pointer while
leaving the state unchanged. -/
theorem c9_realloc_zero (se : Exp.EState) (bp : Nat) (ss : Seg.SState) (bp2 : Nat)
    (hsz : 16 ≤ sizeAt se.heap (HDRP bp)) :
    Exp.mm_realloc se bp 0 = (se, bp) ∧ Seg.mm_realloc ss bp2 0 = (ss, 0) := by
  constructor
  · simp only [Exp.mm_realloc]
    have h8 : 0 + 8 ≤ sizeAt se.heap (HDRP bp) := by omega
    rw [if_pos h8]
  · simp only [Seg.mm_realloc]
    rw [if_pos trivial]

/-- C9 witness: the allocated 16-byte block at bp = 16 right after the
explicit variant's mm_init; mm_malloc 1, and the allocated 24-byte block
at bp = 96 of a concrete segregated-fit heap. -/
theorem c9_realloc_zero_witness :
    Exp.mm_realloc expS1.1 16 0 = (expS1.1, 16) ∧
    Seg.mm_realloc segAllocState 96 0 = (segAllocState, 0) :=
  c9_realloc_zero expS1.1 16 segAllocState 96 (by decide)

/-- C4 counterexample: the explicit variant's reallocate(none, 1) does not
behave as allocate(1).  Starting from the freshly initialised heap, the two
final states differ at byte 12, the first block's header: malloc(1) writes
PACK(16,1) = 17 there, while realloc(NULL, 1) mallocs newsize = 1 + 8 bytes
(writing PACK(24,1) = 25) and then frees the null pointer.  (The C
dereferences HDRP(NULL), which is undefined; the model reads the word that
the truncated address denotes, namely the alignment padding.) -/
theorem c4_counterexample :
    getW (Exp.mm_realloc expInit 0 1).1.heap 12 = 25 ∧
    getW (Exp.mm_malloc expInit 1).1.heap 12 = 17 ∧ (25 : Nat) ≠ 17 := by
  refine ⟨by decide, by decide, by decide⟩

/-- C4 (amended): only the buddy variant implements reallocate(none, n) as
allocate(n) — its mm_realloc with the null pointer defers to mm_malloc
directly, with identical result and state, reading nothing else; the
explicit and segregated-fit variants have no null check and read the
header word of the null pointer (see the counterexample). -/
theorem c4_realloc_null_amended (s : Bud.BState) (n : Nat) :
    Bud.mm_realloc s 0 n = Bud.mm_malloc s n := by
  simp only [Bud.mm_realloc]
  rw [if_pos trivial]

end MallocLab

namespace MallocLab

/-- C3 counterexample: the buddy variant has no in-place path.  After
mm_init and p = mm_malloc 1 (returning the allocated 16-byte block at 96),
reallocate(96, 1) satisfies need = align_up(1+8, 8) = 16 ≤ have = 16, yet
it returns the different pointer 112 instead of 96. -/
theorem c3_counterexample :
    budM1.2 = 96 ∧
    alignUp8 (1 + 8) ≤ sizeAt budM1.1.heap (HDRP 96) ∧
    (Bud.mm_realloc budM1.1 96 1).2 = 112 ∧ (112 : Nat) ≠ 96 := by
  refine ⟨by decide, by decide, by decide, by decide⟩

/-- C3 (amended): in the explicit and segregated-fit variants (the buddy
variant instead always relocates, see the counterexample), reallocating an
allocated block bp with need = align_up(n + 8, 8) ≤ have returns bp itself
and leaves the state completely unchanged — no shrink, no split, no
free-list modification; the segregated-fit variant does so for n ≥ 1 and
returns the null pointer (state still unchanged) for n = 0. -/
theorem c3_realloc_in_place_amended (se : Exp.EState) (ss : Seg.SState) (bp bp2 n : Nat)
    (hae : allocAt se.heap (HDRP bp) = 1)
    (has : allocAt ss.heap (HDRP bp2) = 1)
    (he : alignUp8 (n + 8) ≤ sizeAt se.heap (HDRP bp))
    (hs : alignUp8 (n + 8) ≤ sizeAt ss.heap (HDRP bp2)) :
    Exp.mm_realloc se bp n = (se, bp) ∧
    (1 ≤ n → Seg.mm_realloc ss bp2 n = (ss, bp2)) ∧
    Seg.mm_realloc ss bp2 0 = (ss, 0) := by
  have hle : n + 8 ≤ alignUp8 (n + 8) := le_alignUp8 (n + 8)
  refine ⟨?_, ?_, ?_⟩
  · simp only [Exp.mm_realloc]
    have h8 : n + 8 ≤ sizeAt se.heap (HDRP bp) := by omega
    rw [if_pos h8]
  · intro hn
    simp only [Seg.mm_realloc]
    have h8 : n + 8 ≤ sizeAt ss.heap (HDRP bp2) := by omega
    rw [if_neg (by omega), if_pos h8]
  · simp only [Seg.mm_realloc]
    rw [if_pos trivial]

/-- C3 witness: the amended in-place rule at the allocated 16-byte block
bp = 16 after explicit mm_init; mm_malloc 1, with n = 1 (need = 16), and at
the allocated 24-byte block bp = 96 of a concrete segregated-fit heap with
n = 1 and n = 0. -/
theorem c3_realloc_in_place_amended_witness :
    Exp.mm_realloc expS1.1 16 1 = (expS1.1, 16) ∧
    Seg.mm_realloc segAllocState 96 1 = (segAllocState, 96) ∧
    Seg.mm_realloc segAllocState 96 0 = (segAllocState, 0) := by
  have h := c3_realloc_in_place_amended expS1.1 segAllocState 16 96 1
    (by decide) (by decide) (by decide) (by decide)
  exact ⟨h.1, h.2.1 (by decide), h.2.2⟩

end MallocLab

namespace MallocLab

/-- C1: evaluation of the explicit variant's mm_realloc at a failing input.
On the heap reallocMoveState (allocated 16-byte block A at bp = 16 whose
payload words are 257 and 258, allocated next block, free 32-byte block too
small for the request), reallocate(16, 20) must move the data; the claim
(and the spec) say exactly min(have − 8, n) = min(8, 20) = 8 bytes are
copied.  Instead the code calls mm_malloc(n + 8) and copies n + 8 = 28
bytes: the relocated payload at offsets 8, 12 and 16 holds the old block's
footer word 17, the next block's header word 17 and the next block's
payload word 259 — bytes read from beyond the old block's payload (an
out-of-bounds read in the C). -/
theorem c1_realloc_copy_overrun :
    (Exp.mm_realloc reallocMoveState 16 20).2 = 48 ∧
    min (sizeAt reallocMoveState.heap (HDRP 16) - 8) 20 = 8 ∧
    getW (Exp.mm_realloc reallocMoveState 16 20).1.heap 48 = 257 ∧
    getW (Exp.mm_realloc reallocMoveState 16 20).1.heap 52 = 258 ∧
    getW (Exp.mm_realloc reallocMoveState 16 20).1.heap 56 = 17 ∧
    getW (Exp.mm_realloc reallocMoveState 16 20).1.heap 60 = 17 ∧
    getW (Exp.mm_realloc reallocMoveState 16 20).1.heap 64 = 259 := by
  refine ⟨by decide, by decide, by decide, by decide, by decide, by decide, by decide⟩

/-- C8 counterexample: after the explicit variant's initialize, allocate(1)
leaves the remaining free block's header (at byte 28) encoding size 4096,
not 4080: mm_init seeds an extra initial 16-byte free block that the
CHUNKSIZE extension coalesces with, so the split remainder is
4112 − 16 = 4096. -/
theorem c8_counterexample :
    GET_SIZE (getW expS1.1.heap 28) = 4096 ∧ (4096 : Nat) ≠ 4080 := by
  refine ⟨by decide, by decide⟩

/-- C8 (amended): after initialize, allocate(1) returns bp = 16; the
allocated header at byte 12 encodes size 16 with flag 1; the remaining
free block's header at byte 28 encodes size 4096 with flag 0; the epilogue
header PACK(0,1) sits at byte 4124 — offset 4108 from the first payload
pointer 16 — and the break is 4128. -/
theorem c8_split_and_place_amended :
    expS1.2 = 16 ∧
    getW expS1.1.heap 12 = PACK 16 1 ∧
    getW expS1.1.heap 28 = PACK 4096 0 ∧
    getW expS1.1.heap 4124 = PACK 0 1 ∧
    expS1.1.heap.brk = 4128 := by
  refine ⟨by decide, by decide, by decide, by decide, by decide⟩

/-- C5 counterexample: the segregated-fit add_free_block does not set
pred_link(bp) to none.  Inserting the free 16-byte block at 96, whose
stale predecessor slot holds 99, into the empty class list leaves
pred_link(96) = 99 ≠ 0 even though 96 becomes the list head. -/
theorem c5_counterexample :
    GET_PRED (Seg.add_free_block segAddState 96).heap 96 = 99 ∧ (99 : Nat) ≠ 0 ∧
    Seg.getRoot (Seg.add_free_block segAddState 96) (Seg.get_class 16) = 96 := by
  refine ⟨by decide, by decide, by decide⟩

end MallocLab

namespace MallocLab

/-- C5 (amended): only the explicit variant performs the full LIFO head
insertion — pred_link(bp) := none, succ_link(bp) := old head, the old
head's pred_link := bp when it exists, head := bp — so only there the head
always has pred_link = none.  The segregated-fit add_free_block performs
the same steps except that it never writes pred_link(bp): the new head's
predecessor slot keeps its stale contents (see the counterexample). -/
theorem c5_insert_amended
    (e : Exp.EState) (bp : Nat)
    (heo : e.free_listp = 0 ∨ (e.free_listp % 8 = 0 ∧ bp % 8 = 0 ∧ e.free_listp ≠ bp))
    (s : Seg.SState) (bs : Nat)
    (hsl : s.heap_listp = 8) (hbs8 : bs % 8 = 0) (hbs96 : 96 ≤ bs)
    (hszb : 16 ≤ sizeAt s.heap (HDRP bs))
    (hro : Seg.getRoot s (Seg.get_class (sizeAt s.heap (HDRP bs))) = 0 ∨
      (Seg.getRoot s (Seg.get_class (sizeAt s.heap (HDRP bs))) % 8 = 0 ∧
       96 ≤ Seg.getRoot s (Seg.get_class (sizeAt s.heap (HDRP bs))) ∧
       Seg.getRoot s (Seg.get_class (sizeAt s.heap (HDRP bs))) ≠ bs)) :
    (Exp.add_free_block e bp).free_listp = bp ∧
    GET_PRED (Exp.add_free_block e bp).heap bp = 0 ∧
    GET_SUCC (Exp.add_free_block e bp).heap bp = e.free_listp ∧
    (e.free_listp ≠ 0 → GET_PRED (Exp.add_free_block e bp).heap e.free_listp = bp) ∧
    Seg.getRoot (Seg.add_free_block s bs) (Seg.get_class (sizeAt s.heap (HDRP bs))) = bs ∧
    GET_SUCC (Seg.add_free_block s bs).heap bs =
      Seg.getRoot s (Seg.get_class (sizeAt s.heap (HDRP bs))) ∧
    (Seg.getRoot s (Seg.get_class (sizeAt s.heap (HDRP bs))) ≠ 0 →
      GET_PRED (Seg.add_free_block s bs).heap
        (Seg.getRoot s (Seg.get_class (sizeAt s.heap (HDRP bs)))) = bs) ∧
    GET_PRED (Seg.add_free_block s bs).heap bs = GET_PRED s.heap bs := by
  obtain ⟨hm1, hm19, -, -, hcast⟩ := Seg.get_class_spec (sizeAt s.heap (HDRP bs)) hszb
  have hraK : Seg.rootAddr s.heap_listp (Seg.get_class (sizeAt s.heap (HDRP bs))) =
      8 + 4 * (Seg.get_class (sizeAt s.heap (HDRP bs))).toNat := by
    rw [hsl]
    conv_lhs => rw [hcast, Seg.rootAddr_natCast]
  have hexp : Exp.add_free_block e bp = ⟨(if e.free_listp ≠ 0
      then putW (putW (putW e.heap bp 0) (bp + 4) e.free_listp) e.free_listp bp
      else putW (putW e.heap bp 0) (bp + 4) e.free_listp), bp⟩ := rfl
  have hr1 : getW (putW s.heap (bs + 4)
        (Seg.getRoot s (Seg.get_class (sizeAt s.heap (HDRP bs)))))
      (Seg.rootAddr s.heap_listp (Seg.get_class (sizeAt s.heap (HDRP bs)))) =
      Seg.getRoot s (Seg.get_class (sizeAt s.heap (HDRP bs))) := by
    rw [hraK, getW_putW, if_neg (by omega)]
    unfold Seg.getRoot
    rw [hraK]
  have hseg : Seg.add_free_block s bs =
      ⟨putW (if Seg.getRoot s (Seg.get_class (sizeAt s.heap (HDRP bs))) ≠ 0
          then putW (putW s.heap (bs + 4)
              (Seg.getRoot s (Seg.get_class (sizeAt s.heap (HDRP bs)))))
            (Seg.getRoot s (Seg.get_class (sizeAt s.heap (HDRP bs)))) bs
          else putW s.heap (bs + 4)
              (Seg.getRoot s (Seg.get_class (sizeAt s.heap (HDRP bs)))))
        (8 + 4 * (Seg.get_class (sizeAt s.heap (HDRP bs))).toNat) bs,
        s.heap_listp⟩ := by
    simp only [Seg.add_free_block, Seg.setRoot]
    have hgr1 : Seg.getRoot
        (⟨putW s.heap (bs + 4)
            (Seg.getRoot s (Seg.get_class (sizeAt s.heap (HDRP bs)))), s.heap_listp⟩ :
          Seg.SState)
        (Seg.get_class (sizeAt s.heap (HDRP bs))) =
        Seg.getRoot s (Seg.get_class (sizeAt s.heap (HDRP bs))) := hr1
    rw [hgr1]
    by_cases hc : Seg.getRoot s (Seg.get_class (sizeAt s.heap (HDRP bs))) = 0
    · simp only [if_neg (not_not_intro hc), hraK]
    · simp only [if_pos hc, hraK]
  refine ⟨?_, ?_, ?_, ?_, ?_, ?_, ?_, ?_⟩
  · rw [hexp]
  · rw [hexp]
    show getW _ bp = 0
    by_cases hfl : e.free_listp = 0
    · rw [if_neg (by omega)]
      rw [getW_putW, if_neg (by omega), getW_putW, if_pos rfl]
    · obtain hfl0 | ⟨hf8, hb8, hfne⟩ := heo
      · exact absurd hfl0 hfl
      · rw [if_pos hfl]
        rw [getW_putW, if_neg (by omega), getW_putW, if_neg (by omega),
          getW_putW, if_pos rfl]
  · rw [hexp]
    show getW _ (bp + 4) = e.free_listp
    by_cases hfl : e.free_listp = 0
    · rw [if_neg (by omega)]
      rw [getW_putW, if_pos rfl]
    · obtain hfl0 | ⟨hf8, hb8, hfne⟩ := heo
      · exact absurd hfl0 hfl
      · rw [if_pos hfl]
        rw [getW_putW, if_neg (by omega), getW_putW, if_pos rfl]
  · intro hfl
    rw [hexp]
    show getW _ e.free_listp = bp
    rw [if_pos hfl, getW_putW, if_pos rfl]
  · rw [hseg]
    unfold Seg.getRoot
    show getW _ (Seg.rootAddr s.heap_listp _) = bs
    rw [hraK, getW_putW, if_pos rfl]
  · rw [hseg]
    show getW _ (bs + 4) = _
    by_cases hr0 : Seg.getRoot s (Seg.get_class (sizeAt s.heap (HDRP bs))) = 0
    · rw [if_neg (by omega)]
      rw [getW_putW, if_neg (by omega), getW_putW, if_pos rfl]
    · obtain h0 | ⟨hr8, hr96, hrne⟩ := hro
      · exact absurd h0 hr0
      · rw [if_pos hr0]
        rw [getW_putW, if_neg (by omega), getW_putW, if_neg (by omega),
          getW_putW, if_pos rfl]
  · intro hr0
    obtain h0 | ⟨hr8, hr96, hrne⟩ := hro
    · exact absurd h0 hr0
    · rw [hseg]
      show getW _ (Seg.getRoot s (Seg.get_class (sizeAt s.heap (HDRP bs)))) = bs
      rw [if_pos hr0, getW_putW, if_neg (by omega), getW_putW, if_pos rfl]
  · rw [hseg]
    show getW _ bs = GET_PRED s.heap bs
    by_cases hr0 : Seg.getRoot s (Seg.get_class (sizeAt s.heap (HDRP bs))) = 0
    · rw [if_neg (by omega)]
      rw [getW_putW, if_neg (by omega), getW_putW, if_neg (by omega)]
      rfl
    · obtain h0 | ⟨hr8, hr96, hrne⟩ := hro
      · exact absurd h0 hr0
      · rw [if_pos hr0]
        rw [getW_putW, if_neg (by omega), getW_putW, if_neg (by omega),
          getW_putW, if_neg (by omega)]
        rfl

/-- C5 witness: the explicit insertion into an empty list (free_listp = 0)
at the free block 96 of expAddState, and the segregated-fit insertion of
the free 16-byte block 96 of segAddState into its empty class list, whose
stale predecessor slot 99 survives. -/
theorem c5_insert_amended_witness :
    (Exp.add_free_block expAddState 96).free_listp = 96 ∧
    GET_PRED (Exp.add_free_block expAddState 96).heap 96 = 0 ∧
    GET_SUCC (Exp.add_free_block expAddState 96).heap 96 = expAddState.free_listp ∧
    (expAddState.free_listp ≠ 0 →
      GET_PRED (Exp.add_free_block expAddState 96).heap expAddState.free_listp = 96) ∧
    Seg.getRoot (Seg.add_free_block segAddState 96)
      (Seg.get_class (sizeAt segAddState.heap (HDRP 96))) = 96 ∧
    GET_SUCC (Seg.add_free_block segAddState 96).heap 96 =
      Seg.getRoot segAddState (Seg.get_class (sizeAt segAddState.heap (HDRP 96))) ∧
    (Seg.getRoot segAddState (Seg.get_class (sizeAt segAddState.heap (HDRP 96))) ≠ 0 →
      GET_PRED (Seg.add_free_block segAddState 96).heap
        (Seg.getRoot segAddState (Seg.get_class (sizeAt segAddState.heap (HDRP 96)))) = 96) ∧
    GET_PRED (Seg.add_free_block segAddState 96).heap 96 = GET_PRED segAddState.heap 96 :=
  c5_insert_amended expAddState 96 (Or.inl (by decide)) segAddState 96
    (by decide) (by decide) (by decide) (by decide) (Or.inl (by decide))

end MallocLab

namespace MallocLab

end MallocLab

namespace MallocLab.Exp

theorem coalesce_case1E (e : EState) (pb ps sz ns : Nat)
    (hpb : 96 ≤ pb) (hpb8 : pb % 8 = 0)
    (hps : 16 ≤ ps) (hps8 : ps % 8 = 0) (hpsB : ps < 2 ^ 20)
    (hsz : 16 ≤ sz) (hsz8 : sz % 8 = 0) (hszB : sz < 2 ^ 20)
    (hns : 16 ≤ ns) (hns8 : ns % 8 = 0) (hnsB : ns < 2 ^ 20)
    (hw1 : getW e.heap (pb + ps - 8) = ps + 1)
    (hw2 : getW e.heap (pb - 4) = ps + 1)
    (hw3 : getW e.heap (pb + ps - 4) = sz)
    (hw4 : getW e.heap (pb + ps + sz - 4) = ns + 1)
    (hfl : e.free_listp = 0) :
    (coalesce e (pb + ps)).2 = pb + ps ∧
    getW (coalesce e (pb + ps)).1.heap (pb + ps - 4) = sz ∧
    (coalesce e (pb + ps)).1.free_listp = pb + ps ∧
    GET_PRED (coalesce e (pb + ps)).1.heap (pb + ps) = 0 := by
  have h20 : (2 : Nat) ^ 20 = 1048576 := by norm_num
  have h32 : (2 : Nat) ^ 32 = 4294967296 := by norm_num
  have hPREV : PREV_BLKP e.heap (pb + ps) = pb := by
    unfold PREV_BLKP sizeAt
    rw [hw1, GET_SIZE_add_flag ps 1 hps8 (by omega) (by omega)]
    omega
  have hFp : FTRP e.heap pb = pb + ps - 8 := by
    unfold FTRP sizeAt HDRP
    rw [hw2, GET_SIZE_add_flag ps 1 hps8 (by omega) (by omega)]
  have hpa : GET_ALLOC (getW e.heap (FTRP e.heap (PREV_BLKP e.heap (pb + ps)))) = 1 := by
    rw [hPREV, hFp, hw1, GET_ALLOC_add_flag ps 1 hps8 (by omega)]
  have hNEXT : NEXT_BLKP e.heap (pb + ps) = pb + ps + sz := by
    unfold NEXT_BLKP sizeAt HDRP
    rw [hw3, GET_SIZE_aligned sz hsz8 (by omega)]
  have hna2 : GET_ALLOC (getW e.heap (HDRP (pb + ps + sz))) = 1 := by
    unfold HDRP
    rw [hw4, GET_ALLOC_add_flag ns 1 hns8 (by omega)]
  have hco : coalesce e (pb + ps) = (add_free_block e (pb + ps), pb + ps) := by
    simp only [coalesce, hpa, hna2, hNEXT]
    rw [if_pos (by simp)]
  have hadd : add_free_block e (pb + ps) =
      ⟨putW (putW e.heap (pb + ps) 0) (pb + ps + 4) e.free_listp, pb + ps⟩ := by
    simp only [add_free_block, hfl]
    rw [if_neg (by simp)]
  rw [hco, hadd]
  refine ⟨rfl, ?_, rfl, ?_⟩
  · show getW _ (pb + ps - 4) = _
    rw [getW_putW, if_neg (by omega), getW_putW, if_neg (by omega)]
    exact hw3
  · show getW _ (pb + ps) = 0
    rw [getW_putW, if_neg (by omega), getW_putW, if_pos rfl]

theorem coalesce_case2E (e : EState) (pb ps sz ns : Nat)
    (hpb : 96 ≤ pb) (hpb8 : pb % 8 = 0)
    (hps : 16 ≤ ps) (hps8 : ps % 8 = 0) (hpsB : ps < 2 ^ 20)
    (hsz : 16 ≤ sz) (hsz8 : sz % 8 = 0) (hszB : sz < 2 ^ 20)
    (hns : 16 ≤ ns) (hns8 : ns % 8 = 0) (hnsB : ns < 2 ^ 20)
    (hw1 : getW e.heap (pb + ps - 8) = ps + 1)
    (hw2 : getW e.heap (pb - 4) = ps + 1)
    (hw3 : getW e.heap (pb + ps - 4) = sz)
    (hw4 : getW e.heap (pb + ps + sz - 4) = ns)
    (hfl : e.free_listp = pb + ps + sz)
    (hsucc : getW e.heap (pb + ps + sz + 4) = 0) :
    (coalesce e (pb + ps)).2 = pb + ps ∧
    getW (coalesce e (pb + ps)).1.heap (pb + ps - 4) = PACK (sz + ns) 0 ∧
    getW (coalesce e (pb + ps)).1.heap (pb + ps + sz + ns - 8) = PACK (sz + ns) 0 ∧
    (coalesce e (pb + ps)).1.free_listp = pb + ps ∧
    GET_PRED (coalesce e (pb + ps)).1.heap (pb + ps) = 0 := by
  have h20 : (2 : Nat) ^ 20 = 1048576 := by norm_num
  have h32 : (2 : Nat) ^ 32 = 4294967296 := by norm_num
  have hPREV : PREV_BLKP e.heap (pb + ps) = pb := by
    unfold PREV_BLKP sizeAt
    rw [hw1, GET_SIZE_add_flag ps 1 hps8 (by omega) (by omega)]
    omega
  have hFp : FTRP e.heap pb = pb + ps - 8 := by
    unfold FTRP sizeAt HDRP
    rw [hw2, GET_SIZE_add_flag ps 1 hps8 (by omega) (by omega)]
  have hpa : GET_ALLOC (getW e.heap (FTRP e.heap (PREV_BLKP e.heap (pb + ps)))) = 1 := by
    rw [hPREV, hFp, hw1, GET_ALLOC_add_flag ps 1 hps8 (by omega)]
  have hNEXT : NEXT_BLKP e.heap (pb + ps) = pb + ps + sz := by
    unfold NEXT_BLKP sizeAt HDRP
    rw [hw3, GET_SIZE_aligned sz hsz8 (by omega)]
  have hna3 : GET_ALLOC (getW e.heap (pb + ps + sz - 4)) = 0 := by
    rw [hw4, GET_ALLOC_aligned ns hns8]
  have hsize2 : sizeAt e.heap (pb + ps - 4) = sz := by
    unfold sizeAt
    rw [hw3, GET_SIZE_aligned sz hsz8 (by omega)]
  have hrm : remove_free_block e (pb + ps + sz) = ⟨e.heap, 0⟩ := by
    unfold remove_free_block
    rw [if_pos hfl.symm]
    show (⟨e.heap, GET_SUCC e.heap (pb + ps + sz)⟩ : EState) = _
    unfold GET_SUCC
    rw [hsucc]
  have hkns : sizeAt e.heap (pb + ps + sz - 4) = ns := by
    unfold sizeAt
    rw [hw4, GET_SIZE_aligned ns hns8 (by omega)]
  have hF2 : FTRP (putW e.heap (pb + ps - 4) (PACK (sz + ns) 0)) (pb + ps) =
      pb + ps + sz + ns - 8 := by
    unfold FTRP sizeAt HDRP
    rw [getW_putW, if_pos rfl, PACK_zero, GET_SIZE_aligned (sz + ns) (by omega) (by omega)]
    omega
  have hco : coalesce e (pb + ps) =
      (add_free_block
        ⟨putW (putW e.heap (pb + ps - 4) (PACK (sz + ns) 0))
          (pb + ps + sz + ns - 8) (PACK (sz + ns) 0), 0⟩ (pb + ps), pb + ps) := by
    simp only [coalesce, HDRP, hpa, hna3, hNEXT, hrm, hkns, hsize2, hF2]
    rw [if_neg (by simp), if_pos (by simp)]
  have hadd : add_free_block
      ⟨putW (putW e.heap (pb + ps - 4) (PACK (sz + ns) 0))
        (pb + ps + sz + ns - 8) (PACK (sz + ns) 0), 0⟩ (pb + ps) =
      ⟨putW (putW (putW (putW e.heap (pb + ps - 4) (PACK (sz + ns) 0))
          (pb + ps + sz + ns - 8) (PACK (sz + ns) 0))
        (pb + ps) 0) (pb + ps + 4) 0, pb + ps⟩ := by
    simp only [add_free_block]
    rw [if_neg (by simp)]
  rw [hco, hadd]
  refine ⟨rfl, ?_, ?_, rfl, ?_⟩
  · show getW _ (pb + ps - 4) = _
    rw [getW_putW, if_neg (by omega), getW_putW, if_neg (by omega),
      getW_putW, if_neg (by omega), getW_putW, if_pos rfl]
  · show getW _ (pb + ps + sz + ns - 8) = _
    rw [getW_putW, if_neg (by omega), getW_putW, if_neg (by omega),
      getW_putW, if_pos rfl]
  · show getW _ (pb + ps) = 0
    rw [getW_putW, if_neg (by omega), getW_putW, if_pos rfl]

end MallocLab.Exp

namespace MallocLab.Exp

theorem coalesce_case3E (e : EState) (pb ps sz ns : Nat)
    (hpb : 96 ≤ pb) (hpb8 : pb % 8 = 0)
    (hps : 16 ≤ ps) (hps8 : ps % 8 = 0) (hpsB : ps < 2 ^ 20)
    (hsz : 16 ≤ sz) (hsz8 : sz % 8 = 0) (hszB : sz < 2 ^ 20)
    (hns : 16 ≤ ns) (hns8 : ns % 8 = 0) (hnsB : ns < 2 ^ 20)
    (hw1 : getW e.heap (pb + ps - 8) = ps)
    (hw2 : getW e.heap (pb - 4) = ps)
    (hw3 : getW e.heap (pb + ps - 4) = sz)
    (hw4 : getW e.heap (pb + ps + sz - 4) = ns + 1)
    (hfl : e.free_listp = pb)
    (hsucc : getW e.heap (pb + 4) = 0) :
    (coalesce e (pb + ps)).2 = pb ∧
    getW (coalesce e (pb + ps)).1.heap (pb - 4) = PACK (sz + ps) 0 ∧
    getW (coalesce e (pb + ps)).1.heap (pb + ps + sz - 8) = PACK (sz + ps) 0 ∧
    (coalesce e (pb + ps)).1.free_listp = pb ∧
    GET_PRED (coalesce e (pb + ps)).1.heap pb = 0 := by
  have h20 : (2 : Nat) ^ 20 = 1048576 := by norm_num
  have h32 : (2 : Nat) ^ 32 = 4294967296 := by norm_num
  have hPREV : PREV_BLKP e.heap (pb + ps) = pb := by
    unfold PREV_BLKP sizeAt
    rw [hw1, GET_SIZE_aligned ps hps8 (by omega)]
    omega
  have hFp : FTRP e.heap pb = pb + ps - 8 := by
    unfold FTRP sizeAt HDRP
    rw [hw2, GET_SIZE_aligned ps hps8 (by omega)]
  have hpa2 : GET_ALLOC (getW e.heap (FTRP e.heap pb)) = 0 := by
    rw [hFp, hw1, GET_ALLOC_aligned ps hps8]
  have hNEXT : NEXT_BLKP e.heap (pb + ps) = pb + ps + sz := by
    unfold NEXT_BLKP sizeAt HDRP
    rw [hw3, GET_SIZE_aligned sz hsz8 (by omega)]
  have hna3 : GET_ALLOC (getW e.heap (pb + ps + sz - 4)) = 1 := by
    rw [hw4, GET_ALLOC_add_flag ns 1 hns8 (by omega)]
  have hsize2 : sizeAt e.heap (pb + ps - 4) = sz := by
    unfold sizeAt
    rw [hw3, GET_SIZE_aligned sz hsz8 (by omega)]
  have hkps2 : sizeAt e.heap (pb - 4) = ps := by
    unfold sizeAt
    rw [hw2, GET_SIZE_aligned ps hps8 (by omega)]
  have hrm : remove_free_block e pb = ⟨e.heap, 0⟩ := by
    unfold remove_free_block
    rw [if_pos hfl.symm]
    show (⟨e.heap, GET_SUCC e.heap pb⟩ : EState) = _
    unfold GET_SUCC
    rw [hsucc]
  have hFbp : FTRP e.heap (pb + ps) = pb + ps + sz - 8 := by
    unfold FTRP sizeAt HDRP
    rw [hw3, GET_SIZE_aligned sz hsz8 (by omega)]
  have hprev1 : PREV_BLKP (putW e.heap (pb + ps + sz - 8) (PACK (sz + ps) 0))
      (pb + ps) = pb := by
    unfold PREV_BLKP sizeAt
    rw [getW_putW, if_neg (by omega), hw1, GET_SIZE_aligned ps hps8 (by omega)]
    omega
  have hprev2 : PREV_BLKP (putW (putW e.heap (pb + ps + sz - 8) (PACK (sz + ps) 0))
      (pb - 4) (PACK (sz + ps) 0)) (pb + ps) = pb := by
    unfold PREV_BLKP sizeAt
    rw [getW_putW, if_neg (by omega), getW_putW, if_neg (by omega), hw1,
      GET_SIZE_aligned ps hps8 (by omega)]
    omega
  have hco : coalesce e (pb + ps) =
      (add_free_block
        ⟨putW (putW e.heap (pb + ps + sz - 8) (PACK (sz + ps) 0))
          (pb - 4) (PACK (sz + ps) 0), 0⟩ pb, pb) := by
    simp only [coalesce, HDRP, hpa2, hna3, hNEXT, hPREV, hrm, hsize2, hkps2, hFbp,
      hprev1, hprev2]
    rw [if_neg (by simp), if_neg (by simp), if_pos (by simp)]
  have hadd : add_free_block
      ⟨putW (putW e.heap (pb + ps + sz - 8) (PACK (sz + ps) 0))
        (pb - 4) (PACK (sz + ps) 0), 0⟩ pb =
      ⟨putW (putW (putW (putW e.heap (pb + ps + sz - 8) (PACK (sz + ps) 0))
          (pb - 4) (PACK (sz + ps) 0)) pb 0) (pb + 4) 0, pb⟩ := by
    simp only [add_free_block]
    rw [if_neg (by simp)]
  rw [hco, hadd]
  refine ⟨rfl, ?_, ?_, rfl, ?_⟩
  · show getW _ (pb - 4) = _
    rw [getW_putW, if_neg (by omega), getW_putW, if_neg (by omega),
      getW_putW, if_pos rfl]
  · show getW _ (pb + ps + sz - 8) = _
    rw [getW_putW, if_neg (by omega), getW_putW, if_neg (by omega),
      getW_putW, if_neg (by omega), getW_putW, if_pos rfl]
  · show getW _ pb = 0
    rw [getW_putW, if_neg (by omega), getW_putW, if_pos rfl]

theorem coalesce_case4E (e : EState) (pb ps sz ns : Nat)
    (hpb : 96 ≤ pb) (hpb8 : pb % 8 = 0)
    (hps : 16 ≤ ps) (hps8 : ps % 8 = 0) (hpsB : ps < 2 ^ 20)
    (hsz : 16 ≤ sz) (hsz8 : sz % 8 = 0) (hszB : sz < 2 ^ 20)
    (hns : 16 ≤ ns) (hns8 : ns % 8 = 0) (hnsB : ns < 2 ^ 20)
    (hw1 : getW e.heap (pb + ps - 8) = ps)
    (hw2 : getW e.heap (pb - 4) = ps)
    (hw3 : getW e.heap (pb + ps - 4) = sz)
    (hw4 : getW e.heap (pb + ps + sz - 4) = ns)
    (hw5 : getW e.heap (pb + ps + sz + ns - 8) = ns)
    (hfl : e.free_listp = pb)
    (hsuccP : getW e.heap (pb + 4) = pb + ps + sz)
    (hsuccN : getW e.heap (pb + ps + sz + 4) = 0) :
    (coalesce e (pb + ps)).2 = pb ∧
    getW (coalesce e (pb + ps)).1.heap (pb - 4) = PACK (sz + ps + ns) 0 ∧
    getW (coalesce e (pb + ps)).1.heap (pb + ps + sz + ns - 8) = PACK (sz + ps + ns) 0 ∧
    (coalesce e (pb + ps)).1.free_listp = pb ∧
    GET_PRED (coalesce e (pb + ps)).1.heap pb = 0 := by
  have h20 : (2 : Nat) ^ 20 = 1048576 := by norm_num
  have h32 : (2 : Nat) ^ 32 = 4294967296 := by norm_num
  have hPREV : PREV_BLKP e.heap (pb + ps) = pb := by
    unfold PREV_BLKP sizeAt
    rw [hw1, GET_SIZE_aligned ps hps8 (by omega)]
    omega
  have hFp : FTRP e.heap pb = pb + ps - 8 := by
    unfold FTRP sizeAt HDRP
    rw [hw2, GET_SIZE_aligned ps hps8 (by omega)]
  have hpa2 : GET_ALLOC (getW e.heap (FTRP e.heap pb)) = 0 := by
    rw [hFp, hw1, GET_ALLOC_aligned ps hps8]
  have hNEXT : NEXT_BLKP e.heap (pb + ps) = pb + ps + sz := by
    unfold NEXT_BLKP sizeAt HDRP
    rw [hw3, GET_SIZE_aligned sz hsz8 (by omega)]
  have hna3 : GET_ALLOC (getW e.heap (pb + ps + sz - 4)) = 0 := by
    rw [hw4, GET_ALLOC_aligned ns hns8]
  have hsize2 : sizeAt e.heap (pb + ps - 4) = sz := by
    unfold sizeAt
    rw [hw3, GET_SIZE_aligned sz hsz8 (by omega)]
  have hkps2 : sizeAt e.heap (pb - 4) = ps := by
    unfold sizeAt
    rw [hw2, GET_SIZE_aligned ps hps8 (by omega)]
  have hrmP : remove_free_block e pb = ⟨e.heap, pb + ps + sz⟩ := by
    unfold remove_free_block
    rw [if_pos hfl.symm]
    show (⟨e.heap, GET_SUCC e.heap pb⟩ : EState) = _
    unfold GET_SUCC
    rw [hsuccP]
  have hrmN : remove_free_block (⟨e.heap, pb + ps + sz⟩ : EState) (pb + ps + sz) =
      ⟨e.heap, 0⟩ := by
    unfold remove_free_block
    rw [if_pos rfl]
    show (⟨e.heap, GET_SUCC e.heap (pb + ps + sz)⟩ : EState) = _
    unfold GET_SUCC
    rw [hsuccN]
  have hFnb : FTRP e.heap (pb + ps + sz) = pb + ps + sz + ns - 8 := by
    unfold FTRP sizeAt HDRP
    rw [hw4, GET_SIZE_aligned ns hns8 (by omega)]
  have hkfs : sizeAt e.heap (pb + ps + sz + ns - 8) = ns := by
    unfold sizeAt
    rw [hw5, GET_SIZE_aligned ns hns8 (by omega)]
  have hm3next : NEXT_BLKP (putW e.heap (pb - 4) (PACK (sz + ps + ns) 0)) (pb + ps) =
      pb + ps + sz := by
    unfold NEXT_BLKP sizeAt HDRP
    rw [getW_putW, if_neg (by omega), hw3, GET_SIZE_aligned sz hsz8 (by omega)]
  have hm3f : FTRP (putW e.heap (pb - 4) (PACK (sz + ps + ns) 0)) (pb + ps + sz) =
      pb + ps + sz + ns - 8 := by
    unfold FTRP sizeAt HDRP
    rw [getW_putW, if_neg (by omega), hw4, GET_SIZE_aligned ns hns8 (by omega)]
  have hm4prev : PREV_BLKP (putW (putW e.heap (pb - 4) (PACK (sz + ps + ns) 0))
      (pb + ps + sz + ns - 8) (PACK (sz + ps + ns) 0)) (pb + ps) = pb := by
    unfold PREV_BLKP sizeAt
    rw [getW_putW, if_neg (by omega), getW_putW, if_neg (by omega), hw1,
      GET_SIZE_aligned ps hps8 (by omega)]
    omega
  have hco : coalesce e (pb + ps) =
      (add_free_block
        ⟨putW (putW e.heap (pb - 4) (PACK (sz + ps + ns) 0))
          (pb + ps + sz + ns - 8) (PACK (sz + ps + ns) 0), 0⟩ pb, pb) := by
    simp only [coalesce, HDRP, hpa2, hna3, hNEXT, hPREV, hrmP, hrmN, hsize2, hkps2,
      hFnb, hkfs, hm3next, hm3f, hm4prev]
    rw [if_neg (by simp), if_neg (by simp), if_neg (by simp)]
  have hadd : add_free_block
      ⟨putW (putW e.heap (pb - 4) (PACK (sz + ps + ns) 0))
        (pb + ps + sz + ns - 8) (PACK (sz + ps + ns) 0), 0⟩ pb =
      ⟨putW (putW (putW (putW e.heap (pb - 4) (PACK (sz + ps + ns) 0))
          (pb + ps + sz + ns - 8) (PACK (sz + ps + ns) 0)) pb 0) (pb + 4) 0, pb⟩ := by
    simp only [add_free_block]
    rw [if_neg (by simp)]
  rw [hco, hadd]
  refine ⟨rfl, ?_, ?_, rfl, ?_⟩
  · show getW _ (pb - 4) = _
    rw [getW_putW, if_neg (by omega), getW_putW, if_neg (by omega),
      getW_putW, if_neg (by omega), getW_putW, if_pos rfl]
  · show getW _ (pb + ps + sz + ns - 8) = _
    rw [getW_putW, if_neg (by omega), getW_putW, if_neg (by omega),
      getW_putW, if_pos rfl]
  · show getW _ pb = 0
    rw [getW_putW, if_neg (by omega), getW_putW, if_pos rfl]

end MallocLab.Exp

namespace MallocLab

/-- C6: in the boundary-tag variants (segregated-fit state s, explicit
state e), coalesce follows the four-case table driven by the allocation
flags of the previous block's footer and the next block's header.  For a
well-formed three-block window prev (size ps at pb) / freed block (size sz
at bp = pb + ps) / next (size ns), with each free neighbour at the head of
its free list (sole element of its class list in the segregated-fit
variant, the other roots empty; head of the single list in the explicit
variant): case 1 (both allocated) inserts bp as-is — header untouched, bp
becomes the list head; case 2 (next free) removes next and absorbs it —
header at bp and footer at bp + sz + ns − 8 are written with
PACK(sz + ns, 0); case 3 (prev free) absorbs bp into prev, returning pb
with PACK(sz + ps, 0) in header and merged footer; case 4 (both free)
merges all three, returning pb with PACK(sz + ps + ns, 0) in header and
footer.  In each case the resulting block is inserted afterwards: in the
segregated-fit variant it becomes the head of the class list of the
merged size (the header and footer are written before the insertion, so
class_of sees the new size), and in the explicit variant it becomes the
LIFO head. -/
theorem c6_coalesce_four_cases (s : Seg.SState) (e : Exp.EState) (pb ps sz ns : Nat)
    (hlp : s.heap_listp = 8)
    (hpb : 96 ≤ pb) (hpb8 : pb % 8 = 0)
    (hps : 16 ≤ ps) (hps8 : ps % 8 = 0) (hpsB : ps < 2 ^ 20)
    (hsz : 16 ≤ sz) (hsz8 : sz % 8 = 0) (hszB : sz < 2 ^ 20)
    (hns : 16 ≤ ns) (hns8 : ns % 8 = 0) (hnsB : ns < 2 ^ 20)
    (hhdr : getW s.heap (pb + ps - 4) = sz)
    (hhdrE : getW e.heap (pb + ps - 4) = sz) :
    ((getW s.heap (pb + ps - 8) = ps + 1 ∧ getW s.heap (pb - 4) = ps + 1 ∧
      getW s.heap (pb + ps + sz - 4) = ns + 1 ∧
      (∀ k, k < 20 → getW s.heap (8 + 4 * k) = 0) ∧
      getW e.heap (pb + ps - 8) = ps + 1 ∧ getW e.heap (pb - 4) = ps + 1 ∧
      getW e.heap (pb + ps + sz - 4) = ns + 1 ∧ e.free_listp = 0) →
      ((Seg.coalesce s (pb + ps)).2 = pb + ps ∧
       getW (Seg.coalesce s (pb + ps)).1.heap (pb + ps - 4) = sz ∧
       getW (Seg.coalesce s (pb + ps)).1.heap
         (8 + 4 * (Seg.get_class sz).toNat) = pb + ps) ∧
      ((Exp.coalesce e (pb + ps)).2 = pb + ps ∧
       getW (Exp.coalesce e (pb + ps)).1.heap (pb + ps - 4) = sz ∧
       (Exp.coalesce e (pb + ps)).1.free_listp = pb + ps ∧
       GET_PRED (Exp.coalesce e (pb + ps)).1.heap (pb + ps) = 0)) ∧
    ((getW s.heap (pb + ps - 8) = ps + 1 ∧ getW s.heap (pb - 4) = ps + 1 ∧
      getW s.heap (pb + ps + sz - 4) = ns ∧
      getW s.heap (8 + 4 * (Seg.get_class ns).toNat) = pb + ps + sz ∧
      getW s.heap (pb + ps + sz + 4) = 0 ∧
      (∀ k, k < 20 → k ≠ (Seg.get_class ns).toNat → getW s.heap (8 + 4 * k) = 0) ∧
      getW e.heap (pb + ps - 8) = ps + 1 ∧ getW e.heap (pb - 4) = ps + 1 ∧
      getW e.heap (pb + ps + sz - 4) = ns ∧ e.free_listp = pb + ps + sz ∧
      getW e.heap (pb + ps + sz + 4) = 0) →
      ((Seg.coalesce s (pb + ps)).2 = pb + ps ∧
       getW (Seg.coalesce s (pb + ps)).1.heap (pb + ps - 4) = PACK (sz + ns) 0 ∧
       getW (Seg.coalesce s (pb + ps)).1.heap (pb + ps + sz + ns - 8) = PACK (sz + ns) 0 ∧
       getW (Seg.coalesce s (pb + ps)).1.heap
         (8 + 4 * (Seg.get_class (sz + ns)).toNat) = pb + ps) ∧
      ((Exp.coalesce e (pb + ps)).2 = pb + ps ∧
       getW (Exp.coalesce e (pb + ps)).1.heap (pb + ps - 4) = PACK (sz + ns) 0 ∧
       getW (Exp.coalesce e (pb + ps)).1.heap (pb + ps + sz + ns - 8) = PACK (sz + ns) 0 ∧
       (Exp.coalesce e (pb + ps)).1.free_listp = pb + ps ∧
       GET_PRED (Exp.coalesce e (pb + ps)).1.heap (pb + ps) = 0)) ∧
    ((getW s.heap (pb + ps - 8) = ps ∧ getW s.heap (pb - 4) = ps ∧
      getW s.heap (pb + ps + sz - 4) = ns + 1 ∧
      getW s.heap (8 + 4 * (Seg.get_class ps).toNat) = pb ∧
      getW s.heap (pb + 4) = 0 ∧
      (∀ k, k < 20 → k ≠ (Seg.get_class ps).toNat → getW s.heap (8 + 4 * k) = 0) ∧
      getW e.heap (pb + ps - 8) = ps ∧ getW e.heap (pb - 4) = ps ∧
      getW e.heap (pb + ps + sz - 4) = ns + 1 ∧ e.free_listp = pb ∧
      getW e.heap (pb + 4) = 0) →
      ((Seg.coalesce s (pb + ps)).2 = pb ∧
       getW (Seg.coalesce s (pb + ps)).1.heap (pb - 4) = PACK (sz + ps) 0 ∧
       getW (Seg.coalesce s (pb + ps)).1.heap (pb + ps + sz - 8) = PACK (sz + ps) 0 ∧
       getW (Seg.coalesce s (pb + ps)).1.heap
         (8 + 4 * (Seg.get_class (sz + ps)).toNat) = pb) ∧
      ((Exp.coalesce e (pb + ps)).2 = pb ∧
       getW (Exp.coalesce e (pb + ps)).1.heap (pb - 4) = PACK (sz + ps) 0 ∧
       getW (Exp.coalesce e (pb + ps)).1.heap (pb + ps + sz - 8) = PACK (sz + ps) 0 ∧
       (Exp.coalesce e (pb + ps)).1.free_listp = pb ∧
       GET_PRED (Exp.coalesce e (pb + ps)).1.heap pb = 0)) ∧
    ((getW s.heap (pb + ps - 8) = ps ∧ getW s.heap (pb - 4) = ps ∧
      getW s.heap (pb + ps + sz - 4) = ns ∧
      getW s.heap (pb + ps + sz + ns - 8) = ns ∧
      (Seg.get_class ps).toNat ≠ (Seg.get_class ns).toNat ∧
      getW s.heap (8 + 4 * (Seg.get_class ps).toNat) = pb ∧
      getW s.heap (8 + 4 * (Seg.get_class ns).toNat) = pb + ps + sz ∧
      getW s.heap (pb + 4) = 0 ∧ getW s.heap (pb + ps + sz + 4) = 0 ∧
      (∀ k, k < 20 → k ≠ (Seg.get_class ps).toNat → k ≠ (Seg.get_class ns).toNat →
        getW s.heap (8 + 4 * k) = 0) ∧
      getW e.heap (pb + ps - 8) = ps ∧ getW e.heap (pb - 4) = ps ∧
      getW e.heap (pb + ps + sz - 4) = ns ∧ getW e.heap (pb + ps + sz + ns - 8) = ns ∧
      e.free_listp = pb ∧ getW e.heap (pb + 4) = pb + ps + sz ∧
      getW e.heap (pb + ps + sz + 4) = 0) →
      ((Seg.coalesce s (pb + ps)).2 = pb ∧
       getW (Seg.coalesce s (pb + ps)).1.heap (pb - 4) = PACK (sz + ps + ns) 0 ∧
       getW (Seg.coalesce s (pb + ps)).1.heap (pb + ps + sz + ns - 8) =
         PACK (sz + ps + ns) 0 ∧
       getW (Seg.coalesce s (pb + ps)).1.heap
         (8 + 4 * (Seg.get_class (sz + ps + ns)).toNat) = pb) ∧
      ((Exp.coalesce e (pb + ps)).2 = pb ∧
       getW (Exp.coalesce e (pb + ps)).1.heap (pb - 4) = PACK (sz + ps + ns) 0 ∧
       getW (Exp.coalesce e (pb + ps)).1.heap (pb + ps + sz + ns - 8) =
         PACK (sz + ps + ns) 0 ∧
       (Exp.coalesce e (pb + ps)).1.free_listp = pb ∧
       GET_PRED (Exp.coalesce e (pb + ps)).1.heap pb = 0)) := by
  refine ⟨?_, ?_, ?_, ?_⟩
  · intro ⟨h1, h2, h3, h4, g1, g2, g3, g4⟩
    exact ⟨Seg.coalesce_case1 s pb ps sz ns hlp hpb hpb8 hps hps8 hpsB hsz hsz8 hszB
      hns hns8 hnsB h1 h2 hhdr h3 h4,
      Exp.coalesce_case1E e pb ps sz ns hpb hpb8 hps hps8 hpsB hsz hsz8 hszB
      hns hns8 hnsB g1 g2 hhdrE g3 g4⟩
  · intro ⟨h1, h2, h3, h4, h5, h6, g1, g2, g3, g4, g5⟩
    exact ⟨Seg.coalesce_case2 s pb ps sz ns hlp hpb hpb8 hps hps8 hpsB hsz hsz8 hszB
      hns hns8 hnsB h1 h2 hhdr h3 h4 h5 h6,
      Exp.coalesce_case2E e pb ps sz ns hpb hpb8 hps hps8 hpsB hsz hsz8 hszB
      hns hns8 hnsB g1 g2 hhdrE g3 g4 g5⟩
  · intro ⟨h1, h2, h3, h4, h5, h6, g1, g2, g3, g4, g5⟩
    exact ⟨Seg.coalesce_case3 s pb ps sz ns hlp hpb hpb8 hps hps8 hpsB hsz hsz8 hszB
      hns hns8 hnsB h1 h2 hhdr h3 h4 h5 h6,
      Exp.coalesce_case3E e pb ps sz ns hpb hpb8 hps hps8 hpsB hsz hsz8 hszB
      hns hns8 hnsB g1 g2 hhdrE g3 g4 g5⟩
  · intro ⟨h1, h2, h3, h4, h5, h6, h7, h8, h9, h10, g1, g2, g3, g4, g5, g6, g7⟩
    exact ⟨Seg.coalesce_case4 s pb ps sz ns hlp hpb hpb8 hps hps8 hpsB hsz hsz8 hszB
      hns hns8 hnsB h1 h2 hhdr h3 h4 h5 h6 h7 h8 h9 h10,
      Exp.coalesce_case4E e pb ps sz ns hpb hpb8 hps hps8 hpsB hsz hsz8 hszB
      hns hns8 hnsB g1 g2 hhdrE g3 g4 g5 g6 g7⟩

/-- C6 witness: case 2 (next free) on the concrete heaps segCoalState and
expCoalState — allocated prev of size 16 at 96, freed block of size 16 at
112, free next of size 24 at 128 heading its list.  Coalescing absorbs the
next block in both variants: PACK(40,0) = 40 is written at header 108 and
footer 144; in the segregated-fit variant 112 heads class(40) = 2 (root at
byte 16), in the explicit variant free_listp becomes 112 with
pred_link(112) = none. -/
theorem c6_coalesce_four_cases_witness :
    ((Seg.coalesce segCoalState 112).2 = 112 ∧
     getW (Seg.coalesce segCoalState 112).1.heap 108 = PACK (16 + 24) 0 ∧
     getW (Seg.coalesce segCoalState 112).1.heap 144 = PACK (16 + 24) 0 ∧
     getW (Seg.coalesce segCoalState 112).1.heap
       (8 + 4 * (Seg.get_class (16 + 24)).toNat) = 112) ∧
    ((Exp.coalesce expCoalState 112).2 = 112 ∧
     getW (Exp.coalesce expCoalState 112).1.heap 108 = PACK (16 + 24) 0 ∧
     getW (Exp.coalesce expCoalState 112).1.heap 144 = PACK (16 + 24) 0 ∧
     (Exp.coalesce expCoalState 112).1.free_listp = 112 ∧
     GET_PRED (Exp.coalesce expCoalState 112).1.heap 112 = 0) := by
  have h := (c6_coalesce_four_cases segCoalState expCoalState 96 16 16 24 (by decide)
    (by decide) (by decide) (by decide) (by decide) (by decide) (by decide) (by decide)
    (by decide) (by decide) (by decide) (by decide) (by decide) (by decide)).2.1
    ⟨by decide, by decide, by decide, by decide, by decide, by decide, by decide,
     by decide, by decide, by decide, by decide⟩
  exact h

end MallocLab
